import Mathlib

/-! The package logbus: a leveled logging facility.

A shallow embedding of `log.go` (package `logbus`): the `Level` enumeration and its
conversions, the logger registry, caller resolution and the per-call write path.

Conventions of the embedding.

* `Level` is `uint32` in the source; it is a natural number here and no operation of the
  package does arithmetic on it.
* A `*Logger` is an index into `State.heap`; the map `loggers` is an association list
  from names to such indices.
* An `io.Writer` is a natural number naming the sink; `State.written` records, in order,
  every `Write` call as the sink together with the bytes handed to it.
* The wall clock and the call stack are inputs of an emission call (`CallEnv`).
* Go strings are Lean strings; an index into a string counts characters.
-/

namespace Logbus

/-! ## Level -/

/-- The type `Level` of the source (`type Level uint32`). -/
abbrev Level := Nat

def PanicLevel : Level := 0
def FatalLevel : Level := 1
def ErrorLevel : Level := 2
def WarnLevel : Level := 3
def InfoLevel : Level := 4
def DebugLevel : Level := 5
def TraceLevel : Level := 6

/-- The function `StringToLevel` of the source: the switch over the five lowercase names,
with `DebugLevel` as the initial value of `l`. -/
def StringToLevel (level : String) : Level :=
  if level = "trace" then TraceLevel
  else if level = "debug" then DebugLevel
  else if level = "info" then InfoLevel
  else if level = "warn" then WarnLevel
  else if level = "error" then ErrorLevel
  else DebugLevel

/-- The method `(l Level) String()` of the source: six cases, then the fall-through
return. -/
def Level.String (l : Level) : String :=
  if l = TraceLevel then "TRACE"
  else if l = DebugLevel then "DEBUG"
  else if l = InfoLevel then "INFO"
  else if l = WarnLevel then "WARN"
  else if l = ErrorLevel then "ERROR"
  else if l = PanicLevel then "PANIC"
  else "UNKOWN"

/-! ## The parts of the Go standard library the package calls

These are models of library functions, written from the library's documented behaviour on
the fragment described at each definition. -/

/-- The function `strings.LastIndex(s, string(c))` for a one-character separator, scanning
from position `i` with `best` the last match seen so far; `-1` when there is none. -/
def strings.lastIndexFrom (c : Char) : List Char → Nat → Int → Int
  | [], _, best => best
  | x :: xs, i, best => strings.lastIndexFrom c xs (i + 1) (if x = c then (i : Int) else best)

/-- The function `strings.LastIndex(s, string(c))`: index of the last `c` in `s`, or `-1`. -/
def strings.LastIndex (s : List Char) (c : Char) : Int :=
  strings.lastIndexFrom c s 0 (-1)

/-- The function `strings.Contains(s, substr)`: `substr` occurs somewhere within `s`. -/
def strings.Contains : List Char → List Char → Bool
  | [], substr => substr.isPrefixOf []
  | c :: cs, substr => substr.isPrefixOf (c :: cs) || strings.Contains cs substr

/-- The function `path.Base`: the last element of a slash-separated path, after removing
trailing slashes; `"."` for the empty path and `"/"` for a path of slashes only. -/
def path.Base (p : String) : String :=
  if p = "" then "."
  else
    let q := (p.data.reverse.dropWhile (fun c => c = '/')).reverse
    let i := strings.LastIndex q '/'
    let r := if 0 ≤ i then q.drop (i + 1).toNat else q
    if r = [] then "/" else String.mk r

/-- An operand of the `fmt` functions: a string, an integer, a boolean, the nil interface
value, or a `logbus.Level` (which carries a `String` method). -/
inductive Value where
  | str (s : String)
  | int (i : Int)
  | bool (b : Bool)
  | nil
  | level (l : Level)
  deriving DecidableEq, Repr

/-- Whether the operand's kind is `reflect.String`. -/
def Value.isString : Value → Bool
  | .str _ => true
  | _ => false

/-- Decimal text of an integer (`%d`). -/
def fmt.decimal (i : Int) : String := toString i

/-- The default format of an operand (verb `%v`, no width): a `Level` is printed through
its `String` method. -/
def fmt.default : Value → String
  | .str s => s
  | .int i => fmt.decimal i
  | .bool b => if b then "true" else "false"
  | .nil => "<nil>"
  | .level l => Level.String l

/-- The operand as `fmt` prints it inside an error form (`type=value`, or `<nil>`); with
`methods` false the `String` method of a `Level` is not used. -/
def fmt.typed (methods : Bool) : Value → String
  | .str s => "string=" ++ s
  | .int i => "int=" ++ fmt.decimal i
  | .bool b => "bool=" ++ (if b then "true" else "false")
  | .nil => "<nil>"
  | .level l => "logbus.Level=" ++ (if methods then Level.String l else fmt.decimal (l : Int))

/-- Padding to a width: spaces are written on the left until the text has `wid`
characters; no width, or a text already that long, leaves the text as it is. -/
def fmt.pad (wid : Option Nat) (s : String) : String :=
  match wid with
  | none => s
  | some n => String.mk (List.replicate (n - s.length) ' ') ++ s

/-- One directive `%[width]verb` applied to one operand, for the verbs `v`, `s`, `d` and
`t`; any other pairing of verb and operand gives the bad-verb form `%!verb(type=value)`. -/
def fmt.printArg (verb : Char) (wid : Option Nat) (a : Value) : String :=
  match a with
  | .str s => if verb = 'v' ∨ verb = 's' then fmt.pad wid s
      else "%!" ++ String.singleton verb ++ "(" ++ fmt.typed false a ++ ")"
  | .int i => if verb = 'v' ∨ verb = 'd' then fmt.pad wid (fmt.decimal i)
      else "%!" ++ String.singleton verb ++ "(" ++ fmt.typed false a ++ ")"
  | .bool b => if verb = 'v' ∨ verb = 't' then fmt.pad wid (if b then "true" else "false")
      else "%!" ++ String.singleton verb ++ "(" ++ fmt.typed false a ++ ")"
  | .nil => if verb = 'v' then fmt.pad wid "<nil>"
      else "%!" ++ String.singleton verb ++ "(" ++ fmt.typed false a ++ ")"
  | .level l => if verb = 'v' ∨ verb = 's' then fmt.pad wid (Level.String l)
      else if verb = 'd' then fmt.pad wid (fmt.decimal (l : Int))
      else "%!" ++ String.singleton verb ++ "(" ++ fmt.typed false a ++ ")"

/-- The operands left over when the format is exhausted: nothing when there are none,
otherwise `%!(EXTRA type=value, ...)`. -/
def fmt.extra (args : List Value) : String :=
  match args with
  | [] => ""
  | _ :: _ => "%!(EXTRA " ++ ", ".intercalate (args.map (fmt.typed true)) ++ ")"

/-- The loop of `fmt.Sprintf` over the format, one character at a time. `dir` is `none`
in literal text and `some wid` inside a directive, after the `%`, with `wid` the width
read so far. The fragment modelled is: literal text, `%%`, and directives
`%[width]verb` with verb among `v s d t`; flags, precision, argument indexes and the
remaining verbs of the library are outside it. -/
def fmt.doPrintf : List Char → List Value → Option (Option Nat) → String
  | [], args, none => fmt.extra args
  | [], args, some _ => "%!(NOVERB)" ++ fmt.extra args
  | c :: rest, args, none =>
      if c = '%' then fmt.doPrintf rest args (some none)
      else String.singleton c ++ fmt.doPrintf rest args none
  | c :: rest, args, some wid =>
      if c.isDigit then
        fmt.doPrintf rest args (some (some (wid.getD 0 * 10 + (c.toNat - '0'.toNat))))
      else if c = '%' then "%" ++ fmt.doPrintf rest args none
      else
        match args with
        | [] => "%!" ++ String.singleton c ++ "(MISSING)" ++ fmt.doPrintf rest [] none
        | a :: more => fmt.printArg c wid a ++ fmt.doPrintf rest more none

/-- The function `fmt.Sprintf`. -/
def fmt.Sprintf (format : String) (args : List Value) : String :=
  fmt.doPrintf format.data args none

/-- The loop of `fmt.Sprint` (`doPrint`): operands in their default format, with a space
written before an operand when it is not the first and neither it nor the operand before
it is a string. -/
def fmt.doPrint : List Value → Nat → Bool → String
  | [], _, _ => ""
  | arg :: rest, argNum, prevString =>
      (if 0 < argNum ∧ arg.isString = false ∧ prevString = false then " " else "")
        ++ fmt.default arg ++ fmt.doPrint rest (argNum + 1) arg.isString

/-- The function `fmt.Sprint`. -/
def fmt.Sprint (args : List Value) : String :=
  fmt.doPrint args 0 false

/-! ## Caller resolution -/

/-- A `runtime.Frame`, with the three fields the package reads. -/
structure Frame where
  File : String
  Line : Int
  Function : String
  deriving DecidableEq, Repr

/-- The package variable `logPackage`: declared, never assigned, so the empty string. -/
def logPackage : String := ""

/-- The package variable `maximumCallerDepth`. -/
def maximumCallerDepth : Nat := 10

/-- The package variable `minimumCallerDepth`. -/
def minimumCallerDepth : Nat := 1

/-- The loop of `getPackageName`: while the last period lies after the last slash, cut the
text at that period. Each round shortens the text, so `fuel` above its length is never
used up. -/
def getPackageNameLoop : Nat → List Char → List Char
  | 0, f => f
  | fuel + 1, f =>
      let lastPeriod := strings.LastIndex f '.'
      let lastSlash := strings.LastIndex f '/'
      if lastPeriod > lastSlash then getPackageNameLoop fuel (f.take lastPeriod.toNat)
      else f

/-- The function `getPackageName` of the source. -/
def getPackageName (f : String) : String :=
  String.mk (getPackageNameLoop (f.length + 1) f.data)

/-- The test of `getCaller` on one frame: its package name neither contains `logbus` nor
equals `logPackage`. -/
def callerTest (f : Frame) : Bool :=
  let pkg := getPackageName f.Function
  !strings.Contains pkg.data "logbus".data && pkg != logPackage

/-- The loop of `getCaller` over the frames of `runtime.CallersFrames`. `frames.Next()`
returns a frame and `again`, which says whether a further frame follows; the loop body runs
only while `again` is true, so the frame returned together with `again = false` (the last
one) is not tested. -/
def getCallerLoop : List Frame → Option Frame
  | [] => none
  | [_] => none
  | f :: g :: rest => if callerTest f then some f else getCallerLoop (g :: rest)

/-- The function `getCaller` of the source. `stack` is the call stack as
`runtime.Callers` sees it, its own frame first; `runtime.Callers(minimumCallerDepth, pcs)`
skips `minimumCallerDepth` frames and fills at most `maximumCallerDepth` entries (one
frame for each entry). `none` is the nil pointer. -/
def getCaller (stack : List Frame) : Option Frame :=
  getCallerLoop ((stack.drop minimumCallerDepth).take maximumCallerDepth)

/-! ## Loggers and the registry -/

/-- The struct `Logger` of the source; the field `prefix` is `pfx` here. -/
structure Logger where
  level : Level
  pfx : String
  output : Nat
  deriving DecidableEq, Repr

/-- The sink `os.Stdout`. -/
def Stdout : Nat := 0

/-- The state of the package: the allocated loggers, the map `loggers`, and what has been
written to the sinks so far. -/
structure State where
  heap : List Logger
  loggers : List (String × Nat)
  written : List (Nat × String)
  deriving DecidableEq, Repr

/-- A map lookup `loggers[name]`, with the `found` result as `some`. -/
def State.find (s : State) (name : String) : Option Nat :=
  s.loggers.lookup name

/-- A map assignment `m[k] = v`. -/
def mapAssign (m : List (String × Nat)) (k : String) (v : Nat) : List (String × Nat) :=
  (k, v) :: m.filter (fun e => e.1 != k)

/-- The function `NewLogger` of the source: the registered logger when the name is found,
otherwise a newly allocated one, registered under the name. -/
def NewLogger (s : State) (level : Level) (name : String) : State × Nat :=
  match s.find name with
  | some logger => (s, logger)
  | none =>
      let l := s.heap.length
      ({ s with
          heap := s.heap ++ [{ level := level, pfx := name, output := Stdout }]
          loggers := mapAssign s.loggers name l }, l)

/-- The state before package initialisation: nothing allocated, `loggers` an empty map. -/
def emptyState : State := { heap := [], loggers := [], written := [] }

/-- The state after package initialisation, which evaluates
`defaultLogger = NewLogger(DebugLevel, "default")`. -/
def initState : State := (NewLogger emptyState DebugLevel "default").1

/-- The package variable `defaultLogger`. -/
def defaultLogger : Nat := (NewLogger emptyState DebugLevel "default").2

/-- The method `SetOutput` of the source. -/
def Logger.SetOutput (s : State) (l : Nat) (output : Nat) : State :=
  { s with heap := s.heap.modify (fun lg => { lg with output := output }) l }

/-- The method `SetLevel` of the source. -/
def Logger.SetLevel (s : State) (l : Nat) (level : Level) : State :=
  { s with heap := s.heap.modify (fun lg => { lg with level := level }) l }

/-- The method `SetPrefix` of the source. -/
def Logger.SetPrefix (s : State) (l : Nat) (name : String) : State :=
  { s with heap := s.heap.modify (fun lg => { lg with pfx := name }) l }

/-- The function `SetLogLevel` of the source; the result is the new state and the error,
`none` for nil and `some msg` for `fmt.Errorf("logger [%v] not found", prefix)`. -/
def SetLogLevel (s : State) (name : String) (level : Level) : State × Option String :=
  match s.find name with
  | some l =>
      let s1 : State := { s with heap := s.heap.modify (fun lg => { lg with level := level }) l }
      (Logger.SetLevel s1 l level, none)
  | none => (s, some (fmt.Sprintf "logger [%v] not found" [.str name]))

/-- The function `SetDefaultLogLevel` of the source. -/
def SetDefaultLogLevel (s : State) (level : Level) : State × Option String :=
  (Logger.SetLevel s defaultLogger level, none)

/-- The function `GetLoggers` of the source. -/
def GetLoggers (s : State) : List (String × Nat) := s.loggers

/-! ## The write path -/

/-- What an emission call reads from its surroundings: the text of
`time.Now().Format("2006-01-02 15:04:05.000")` and the call stack at the moment
`getCaller` calls `runtime.Callers`. -/
structure CallEnv where
  now : String
  stack : List Frame
  deriving DecidableEq, Repr

/-- How a call ends: it returns, the process exits through `os.Exit(code)`, or a run-time
panic (a nil pointer dereference) unwinds out of it. Each carries the state reached. -/
inductive Outcome where
  | returned (s : State)
  | exited (code : Int) (s : State)
  | panicked (s : State)
  deriving DecidableEq, Repr

/-- The state an outcome carries. -/
def Outcome.state : Outcome → State
  | .returned s => s
  | .exited _ s => s
  | .panicked s => s

/-- A call `fmt.Fprintf(w, format, args...)`: one `Write` of the formatted text to `w`. -/
def fmt.Fprintf (s : State) (w : Nat) (format : String) (args : List Value) : State :=
  { s with written := s.written ++ [(w, fmt.Sprintf format args)] }

/-- The method `write` of the source. `format` is the `*string` argument, `none` for nil.
Reading `l.prefix` through a pointer that is not allocated, or `frame.File` through the nil
frame, is a nil pointer dereference. -/
def Logger.write (s : State) (l : Nat) (env : CallEnv) (level : Level)
    (format : Option String) (v : List Value) : Outcome :=
  let frame := getCaller env.stack
  match s.heap[l]?, frame with
  | some lg, some frame =>
      let temp := fmt.Sprintf "[%s] %5s %s: [%s:%d] [%s]"
        [.str env.now, .level level, .str lg.pfx, .str (path.Base frame.File),
          .int frame.Line, .str frame.Function]
      match format with
      | none => .returned (fmt.Fprintf s lg.output "%s %s\n" [.str temp, .str (fmt.Sprint v)])
      | some format =>
          .returned (fmt.Fprintf s lg.output "%s %s\n" [.str temp, .str (fmt.Sprintf format v)])
  | _, _ => .panicked s

/-- The statement `os.Exit(code)` after a call: reached only when the call returned. -/
def thenExit (o : Outcome) (code : Int) : Outcome :=
  match o with
  | .returned s => .exited code s
  | o => o

/-- The guard `if l.level < X { return }` in front of a call of `write`; reading
`l.level` through a pointer that is not allocated is a nil pointer dereference. -/
def guarded (s : State) (l : Nat) (x : Level) (body : Outcome) : Outcome :=
  match s.heap[l]? with
  | none => .panicked s
  | some lg => if lg.level < x then .returned s else body

/-- The method `Info` of the source. -/
def Logger.Info (s : State) (l : Nat) (env : CallEnv) (v : List Value) : Outcome :=
  guarded s l InfoLevel (Logger.write s l env InfoLevel none v)

/-- The method `Trace` of the source. -/
def Logger.Trace (s : State) (l : Nat) (env : CallEnv) (v : List Value) : Outcome :=
  guarded s l TraceLevel (Logger.write s l env TraceLevel none v)

/-- The method `Debug` of the source. -/
def Logger.Debug (s : State) (l : Nat) (env : CallEnv) (v : List Value) : Outcome :=
  guarded s l DebugLevel (Logger.write s l env DebugLevel none v)

/-- The method `Warn` of the source. -/
def Logger.Warn (s : State) (l : Nat) (env : CallEnv) (v : List Value) : Outcome :=
  guarded s l WarnLevel (Logger.write s l env WarnLevel none v)

/-- The method `Error` of the source. -/
def Logger.Error (s : State) (l : Nat) (env : CallEnv) (v : List Value) : Outcome :=
  guarded s l ErrorLevel (Logger.write s l env ErrorLevel none v)

/-- The method `Panic` of the source: no guard, `write`, then `os.Exit(-1)`. -/
def Logger.Panic (s : State) (l : Nat) (env : CallEnv) (v : List Value) : Outcome :=
  thenExit (Logger.write s l env PanicLevel none v) (-1)

/-- The method `Infof` of the source. -/
def Logger.Infof (s : State) (l : Nat) (env : CallEnv) (format : String) (v : List Value) :
    Outcome :=
  guarded s l InfoLevel (Logger.write s l env InfoLevel (some format) v)

/-- The method `Tracef` of the source. -/
def Logger.Tracef (s : State) (l : Nat) (env : CallEnv) (format : String) (v : List Value) :
    Outcome :=
  guarded s l TraceLevel (Logger.write s l env TraceLevel (some format) v)

/-- The method `Debugf` of the source. -/
def Logger.Debugf (s : State) (l : Nat) (env : CallEnv) (format : String) (v : List Value) :
    Outcome :=
  guarded s l DebugLevel (Logger.write s l env DebugLevel (some format) v)

/-- The method `Warnf` of the source. -/
def Logger.Warnf (s : State) (l : Nat) (env : CallEnv) (format : String) (v : List Value) :
    Outcome :=
  guarded s l WarnLevel (Logger.write s l env WarnLevel (some format) v)

/-- The method `Errorf` of the source. -/
def Logger.Errorf (s : State) (l : Nat) (env : CallEnv) (format : String) (v : List Value) :
    Outcome :=
  guarded s l ErrorLevel (Logger.write s l env ErrorLevel (some format) v)

/-- The method `Panicf` of the source: no guard, `write`, then `os.Exit(-1)`. -/
def Logger.Panicf (s : State) (l : Nat) (env : CallEnv) (format : String) (v : List Value) :
    Outcome :=
  thenExit (Logger.write s l env PanicLevel (some format) v) (-1)

/-- The package-level function `Infof` of the source, which calls the method of
`defaultLogger`. -/
def Infof (s : State) (env : CallEnv) (format : String) (v : List Value) : Outcome :=
  Logger.Infof s defaultLogger env format v

/-- The twelve emission methods of a logger. -/
inductive Method where
  | Info | Trace | Debug | Warn | Error | Panic
  | Infof | Tracef | Debugf | Warnf | Errorf | Panicf
  deriving DecidableEq, Repr

/-- The severity of an emission method: the level it hands to `write`. -/
def Method.severity : Method → Level
  | .Info | .Infof => InfoLevel
  | .Trace | .Tracef => TraceLevel
  | .Debug | .Debugf => DebugLevel
  | .Warn | .Warnf => WarnLevel
  | .Error | .Errorf => ErrorLevel
  | .Panic | .Panicf => PanicLevel

/-- Whether the method takes a format string. -/
def Method.isFormat : Method → Bool
  | .Infof | .Tracef | .Debugf | .Warnf | .Errorf | .Panicf => true
  | _ => false

/-- A call of emission method `m` on logger `l`; `format` is used by the format-string
forms only. -/
def Method.call (m : Method) (s : State) (l : Nat) (env : CallEnv) (format : String)
    (v : List Value) : Outcome :=
  match m with
  | .Info => Logger.Info s l env v
  | .Trace => Logger.Trace s l env v
  | .Debug => Logger.Debug s l env v
  | .Warn => Logger.Warn s l env v
  | .Error => Logger.Error s l env v
  | .Panic => Logger.Panic s l env v
  | .Infof => Logger.Infof s l env format v
  | .Tracef => Logger.Tracef s l env format v
  | .Debugf => Logger.Debugf s l env format v
  | .Warnf => Logger.Warnf s l env format v
  | .Errorf => Logger.Errorf s l env format v
  | .Panicf => Logger.Panicf s l env format v

/-- The message text of a call: `fmt.Sprint(v...)` for the variadic forms and
`fmt.Sprintf(format, v...)` for the format-string forms. -/
def Method.message (m : Method) (format : String) (v : List Value) : String :=
  if m.isFormat then fmt.Sprintf format v else fmt.Sprint v

/-! ## Concrete inputs used to exercise the theorems -/

/-- A stack as `runtime.Callers` sees it when `main.main` calls the package-level `Infof`. -/
def exampleStack : List Frame :=
  [ { File := "/usr/lib/go/src/runtime/extern.go", Line := 331, Function := "runtime.Callers" },
    { File := "/go/src/github.com/widaT/logbus/log.go", Line := 61,
      Function := "github.com/widaT/logbus.getCaller" },
    { File := "/go/src/github.com/widaT/logbus/log.go", Line := 247,
      Function := "github.com/widaT/logbus.(*Logger).write" },
    { File := "/go/src/github.com/widaT/logbus/log.go", Line := 210,
      Function := "github.com/widaT/logbus.(*Logger).Infof" },
    { File := "/go/src/github.com/widaT/logbus/log.go", Line := 83,
      Function := "github.com/widaT/logbus.Infof" },
    { File := "main.go", Line := 9, Function := "main.main" },
    { File := "/usr/lib/go/src/runtime/proc.go", Line := 250, Function := "runtime.main" },
    { File := "/usr/lib/go/src/runtime/asm_amd64.s", Line := 1594,
      Function := "runtime.goexit" } ]

/-- The frame of `main.main` in `exampleStack`. -/
def exampleCaller : Frame := { File := "main.go", Line := 9, Function := "main.main" }

/-- An emission environment over `exampleStack`. -/
def exampleEnv : CallEnv := { now := "2024-01-02 03:04:05.678", stack := exampleStack }

/-- The line `write` produces for a logger `lg`, a resolved frame and a message. -/
def lineText (ts : String) (L : Level) (lg : Logger) (frame : Frame) (msg : String) : String :=
  "[" ++ ts ++ "] "
    ++ (String.mk (List.replicate (5 - (Level.String L).length) ' ') ++ Level.String L)
    ++ " " ++ lg.pfx ++ ": [" ++ path.Base frame.File ++ ":" ++ fmt.decimal frame.Line
    ++ "] [" ++ frame.Function ++ "]" ++ " " ++ msg ++ "\n"

/-- The message of a variadic call as claim C8 words it: the default forms of the values,
one after the other, nothing between them. -/
def plainConcat : List Value → String
  | [] => ""
  | a :: rest => fmt.default a ++ plainConcat rest

/-- The message of a variadic call: the default forms of the values in order, with one
space between two consecutive values exactly when neither of them is a string. -/
def spacedConcat : List Value → String
  | [] => ""
  | [a] => fmt.default a
  | a :: b :: rest =>
      fmt.default a ++ (if a.isString = false ∧ b.isString = false then " " else "")
        ++ spacedConcat (b :: rest)

/-- No two consecutive values are both non-strings. -/
def stringBetween : List Value → Bool
  | [] => true
  | [_] => true
  | a :: b :: rest => (a.isString || b.isString) && stringBetween (b :: rest)

/-- The exit status a POSIX parent process sees for `os.Exit(code)`: the low eight bits. -/
def exitStatus (code : Int) : Int := code % 256

/-- The import path of the package. -/
def packagePath : String := "github.com/widaT/logbus"

/-- Caller resolution as claim C10 words it: among the frames `getCaller` captures, the
first one that lies outside the package `github.com/widaT/logbus`. -/
def firstOutsidePackage (stack : List Frame) : Option Frame :=
  ((stack.drop minimumCallerDepth).take maximumCallerDepth).find?
    (fun f => getPackageName f.Function != packagePath)

/-- A stack in which `main.main` reaches the logger through a helper of another package
whose import path contains the text `logbus`. -/
def helperStack : List Frame :=
  [ { File := "/usr/lib/go/src/runtime/extern.go", Line := 331, Function := "runtime.Callers" },
    { File := "/go/src/github.com/widaT/logbus/log.go", Line := 61,
      Function := "github.com/widaT/logbus.getCaller" },
    { File := "/go/src/github.com/widaT/logbus/log.go", Line := 247,
      Function := "github.com/widaT/logbus.(*Logger).write" },
    { File := "/go/src/github.com/widaT/logbus/log.go", Line := 170,
      Function := "github.com/widaT/logbus.(*Logger).Info" },
    { File := "/go/src/github.com/acme/logbuskit/audit.go", Line := 21,
      Function := "github.com/acme/logbuskit.Audit" },
    { File := "main.go", Line := 9, Function := "main.main" },
    { File := "/usr/lib/go/src/runtime/proc.go", Line := 250, Function := "runtime.main" },
    { File := "/usr/lib/go/src/runtime/asm_amd64.s", Line := 1594,
      Function := "runtime.goexit" } ]

/-- The frame of the helper in `helperStack`. -/
def helperFrame : Frame :=
  { File := "/go/src/github.com/acme/logbuskit/audit.go", Line := 21,
    Function := "github.com/acme/logbuskit.Audit" }

/-- A stack in which `main.main` reaches the logger through seven nested calls of a
function whose package path contains the text `logbus`: none of the ten frames that
`getCaller` captures passes its test. -/
def deepStack : List Frame :=
  [ { File := "/usr/lib/go/src/runtime/extern.go", Line := 331, Function := "runtime.Callers" },
    { File := "/go/src/github.com/widaT/logbus/log.go", Line := 61,
      Function := "github.com/widaT/logbus.getCaller" },
    { File := "/go/src/github.com/widaT/logbus/log.go", Line := 247,
      Function := "github.com/widaT/logbus.(*Logger).write" },
    { File := "/go/src/github.com/widaT/logbus/log.go", Line := 170,
      Function := "github.com/widaT/logbus.(*Logger).Info" } ]
  ++ List.replicate 7
    { File := "/go/src/github.com/acme/logbuskit/walk.go", Line := 40,
      Function := "github.com/acme/logbuskit.Walk" }
  ++ [ { File := "main.go", Line := 9, Function := "main.main" },
    { File := "/usr/lib/go/src/runtime/proc.go", Line := 250, Function := "runtime.main" },
    { File := "/usr/lib/go/src/runtime/asm_amd64.s", Line := 1594,
      Function := "runtime.goexit" } ]

/-- A sequence of `NewLogger` calls, each given as its threshold and name; the result is the
state after the last one. -/
def createAll (s : State) (calls : List (Level × String)) : State :=
  calls.foldl (fun st c => (NewLogger st c.1 c.2).1) s

/-- The names registered in a state, in the order of the association list. -/
def State.keys (s : State) : List String :=
  s.loggers.map Prod.fst

/-- A public operation of the package, as a client can call it: the package-level
functions, the setters of a logger the client holds, and the emission methods. -/
inductive Op where
  | newLogger (level : Level) (name : String)
  | setLogLevel (name : String) (level : Level)
  | setDefaultLogLevel (level : Level)
  | setLevel (l : Nat) (level : Level)
  | setPrefix (l : Nat) (name : String)
  | setOutput (l : Nat) (output : Nat)
  | emit (m : Method) (l : Nat) (env : CallEnv) (format : String) (v : List Value)
  deriving DecidableEq, Repr

/-- The state after one public operation. -/
def Op.apply (s : State) : Op → State
  | .newLogger level name => (NewLogger s level name).1
  | .setLogLevel name level => (SetLogLevel s name level).1
  | .setDefaultLogLevel level => (SetDefaultLogLevel s level).1
  | .setLevel l level => Logger.SetLevel s l level
  | .setPrefix l name => Logger.SetPrefix s l name
  | .setOutput l output => Logger.SetOutput s l output
  | .emit m l env format v => (m.call s l env format v).state

/-- The state after a sequence of public operations. -/
def run (s : State) (ops : List Op) : State :=
  ops.foldl Op.apply s

/-- The number of newline characters in a text. -/
def newlines (t : String) : Nat :=
  t.data.count '\n'

/-- The stack of `deepStack` for a call of the logger method named `method`. -/
def deepStackFor (method : String) : List Frame :=
  [ { File := "/usr/lib/go/src/runtime/extern.go", Line := 331, Function := "runtime.Callers" },
    { File := "/go/src/github.com/widaT/logbus/log.go", Line := 61,
      Function := "github.com/widaT/logbus.getCaller" },
    { File := "/go/src/github.com/widaT/logbus/log.go", Line := 247,
      Function := "github.com/widaT/logbus.(*Logger).write" },
    { File := "/go/src/github.com/widaT/logbus/log.go", Line := 191,
      Function := "github.com/widaT/logbus.(*Logger)." ++ method } ]
  ++ List.replicate 7
    { File := "/go/src/github.com/acme/logbuskit/walk.go", Line := 40,
      Function := "github.com/acme/logbuskit.Walk" }
  ++ [ { File := "main.go", Line := 9, Function := "main.main" },
    { File := "/usr/lib/go/src/runtime/proc.go", Line := 250, Function := "runtime.main" },
    { File := "/usr/lib/go/src/runtime/asm_amd64.s", Line := 1594,
      Function := "runtime.goexit" } ]

/-- The caller of `serverStack`: a function whose source file lies three directories deep. -/
def serverCaller : Frame :=
  { File := "/home/dev/app/cmd/server.go", Line := 42,
    Function := "github.com/acme/app/cmd.Serve" }

/-- A stack in which `cmd.Serve`, compiled from `/home/dev/app/cmd/server.go`, calls the
method `Warn` of a logger. -/
def serverStack : List Frame :=
  [ { File := "/usr/lib/go/src/runtime/extern.go", Line := 331, Function := "runtime.Callers" },
    { File := "/go/src/github.com/widaT/logbus/log.go", Line := 61,
      Function := "github.com/widaT/logbus.getCaller" },
    { File := "/go/src/github.com/widaT/logbus/log.go", Line := 247,
      Function := "github.com/widaT/logbus.(*Logger).write" },
    { File := "/go/src/github.com/widaT/logbus/log.go", Line := 191,
      Function := "github.com/widaT/logbus.(*Logger).Warn" },
    serverCaller,
    { File := "/home/dev/app/main.go", Line := 12, Function := "main.main" },
    { File := "/usr/lib/go/src/runtime/proc.go", Line := 250, Function := "runtime.main" },
    { File := "/usr/lib/go/src/runtime/asm_amd64.s", Line := 1594,
      Function := "runtime.goexit" } ]

/-! ## Formatting lemmas -/

theorem headerFormat_data :
    "[%s] %5s %s: [%s:%d] [%s]".data =
      ['[', '%', 's', ']', ' ', '%', '5', 's', ' ', '%', 's', ':', ' ', '[', '%', 's', ':',
        '%', 'd', ']', ' ', '[', '%', 's', ']'] := rfl

theorem lineFormat_data : "%s %s\n".data = ['%', 's', ' ', '%', 's', '\n'] := rfl

theorem notFoundFormat_data :
    "logger [%v] not found".data =
      ['l', 'o', 'g', 'g', 'e', 'r', ' ', '[', '%', 'v', ']', ' ', 'n', 'o', 't', ' ', 'f',
        'o', 'u', 'n', 'd'] := rfl

/-- The header of a line, as `write` formats it. -/
theorem sprintf_header (ts p b fn : String) (L : Level) (n : Int) :
    fmt.Sprintf "[%s] %5s %s: [%s:%d] [%s]"
        [.str ts, .level L, .str p, .str b, .int n, .str fn]
      = "[" ++ ts ++ "] "
          ++ (String.mk (List.replicate (5 - (Level.String L).length) ' ') ++ Level.String L)
          ++ " " ++ p ++ ": [" ++ b ++ ":" ++ fmt.decimal n ++ "] [" ++ fn ++ "]" := by
  unfold fmt.Sprintf
  rw [headerFormat_data]
  simp [fmt.doPrintf, fmt.printArg, fmt.extra, fmt.pad, Char.isDigit]
  apply String.ext
  simp [String.singleton, String.data_append]

/-- The whole line, as `write` formats it from the header and the message. -/
theorem sprintf_line (a b : String) :
    fmt.Sprintf "%s %s\n" [.str a, .str b] = a ++ " " ++ b ++ "\n" := by
  unfold fmt.Sprintf
  rw [lineFormat_data]
  simp [fmt.doPrintf, fmt.printArg, fmt.extra, fmt.pad, Char.isDigit]
  apply String.ext
  simp [String.singleton, String.data_append]

/-- The text of the error of `SetLogLevel`. -/
theorem sprintf_notFound (name : String) :
    fmt.Sprintf "logger [%v] not found" [.str name] = "logger [" ++ name ++ "] not found" := by
  unfold fmt.Sprintf
  rw [notFoundFormat_data]
  simp [fmt.doPrintf, fmt.printArg, fmt.extra, fmt.pad, Char.isDigit]
  apply String.ext
  simp [String.singleton, String.data_append]

/-- The closing bracket of the header and the space after it, as one literal. -/
theorem bracket_space (x : String) : "]" ++ (" " ++ x) = "] " ++ x := by
  apply String.ext
  simp [String.data_append]

/-- When the logger is allocated and the caller is resolved, `write` returns after one
`Write` of the line to the logger's output. -/
theorem write_resolved (s : State) (l : Nat) (lg : Logger) (env : CallEnv) (frame : Frame)
    (L : Level) (format : Option String) (v : List Value)
    (hl : s.heap[l]? = some lg) (hf : getCaller env.stack = some frame) :
    Logger.write s l env L format v =
      .returned { s with written := s.written ++
        [(lg.output, lineText env.now L lg frame
          (match format with
            | none => fmt.Sprint v
            | some f => fmt.Sprintf f v))] } := by
  unfold Logger.write
  simp only [hl, hf]
  cases format <;> simp [fmt.Fprintf, sprintf_line, sprintf_header, lineText]

/-- When the caller is not resolved, `write` ends in a run-time panic, nothing written. -/
theorem write_unresolved (s : State) (l : Nat) (env : CallEnv)
    (L : Level) (format : Option String) (v : List Value)
    (hf : getCaller env.stack = none) :
    Logger.write s l env L format v = .panicked s := by
  unfold Logger.write
  simp only [hf]
  cases s.heap[l]? <;> rfl

/-- Every emission method is its guard (none for the Panic forms) around `write` at the
method's severity. -/
theorem call_eq (m : Method) (s : State) (l : Nat) (env : CallEnv) (format : String)
    (v : List Value) :
    m.call s l env format v =
      if m.severity = PanicLevel then
        thenExit (Logger.write s l env PanicLevel
          (if m.isFormat then some format else none) v) (-1)
      else
        guarded s l m.severity (Logger.write s l env m.severity
          (if m.isFormat then some format else none) v) := by
  cases m <;> rfl

theorem message_eq (m : Method) (format : String) (v : List Value) :
    (match (if m.isFormat then some format else none : Option String) with
      | none => fmt.Sprint v
      | some f => fmt.Sprintf f v) = m.message format v := by
  cases m <;> rfl

/-- A call that passes the guard with a resolved caller: the outcome is that of `write`,
followed by the exit for the Panic forms. -/
theorem call_resolved (m : Method) (s : State) (l : Nat) (lg : Logger) (env : CallEnv)
    (frame : Frame) (format : String) (v : List Value)
    (hl : s.heap[l]? = some lg) (hf : getCaller env.stack = some frame)
    (hT : m.severity ≤ lg.level) :
    (m.call s l env format v).state =
      { s with written := s.written ++
        [(lg.output, lineText env.now m.severity lg frame (m.message format v))] } := by
  rw [call_eq, write_resolved s l lg env frame _ _ v hl hf, message_eq]
  by_cases hp : m.severity = PanicLevel
  · simp [hp, thenExit, Outcome.state]
  · simp [hp, guarded, hl, Nat.not_lt.mpr hT, Outcome.state]
    rw [write_resolved s l lg env frame _ _ v hl hf, message_eq]

/-- On a registered name `NewLogger` returns the registered logger and changes nothing. -/
theorem newLogger_found (s : State) (x : String) (T : Level) (l : Nat)
    (h : s.find x = some l) : NewLogger s T x = (s, l) := by
  simp [NewLogger, h]

/-- The loop of `fmt.Sprint` on a non-empty list: the possible leading space, then the
values with spaces between consecutive non-strings. -/
theorem doPrint_cons (rest : List Value) (a : Value) (n : Nat) (prev : Bool) :
    fmt.doPrint (a :: rest) n prev =
      (if 0 < n ∧ a.isString = false ∧ prev = false then " " else "")
        ++ spacedConcat (a :: rest) := by
  induction rest generalizing a n prev with
  | nil => simp [fmt.doPrint, spacedConcat]
  | cons b rest ih =>
      rw [fmt.doPrint, ih b (n + 1) a.isString]
      simp only [spacedConcat, String.append_assoc, Nat.succ_pos, true_and]
      by_cases hb : b.isString = false <;> by_cases ha : a.isString = false <;> simp [hb, ha]

/-- The function `fmt.Sprint` inserts a space exactly between consecutive non-strings. -/
theorem sprint_eq (v : List Value) : fmt.Sprint v = spacedConcat v := by
  cases v with
  | nil => rfl
  | cons a rest =>
      unfold fmt.Sprint
      rw [doPrint_cons]
      simp

/-- With a string in every pair of consecutive values, no space is inserted. -/
theorem spacedConcat_plain (v : List Value) (h : stringBetween v = true) :
    spacedConcat v = plainConcat v := by
  induction v with
  | nil => rfl
  | cons a rest ih =>
      cases rest with
      | nil => simp [spacedConcat, plainConcat]
      | cons b rest =>
          simp only [stringBetween, Bool.and_eq_true, Bool.or_eq_true] at h
          rw [spacedConcat, ih h.2]
          have hs : ¬ (a.isString = false ∧ b.isString = false) := by
            rintro ⟨h1, h2⟩
            rcases h.1 with h3 | h3
            · rw [h1] at h3; exact Bool.noConfusion h3
            · rw [h2] at h3; exact Bool.noConfusion h3
          simp [hs, plainConcat]

/-- What the loop of `getCaller` returns is the first frame that passes its test. -/
theorem getCallerLoop_first (fs : List Frame) (frame : Frame)
    (h : getCallerLoop fs = some frame) :
    ∃ i : Nat, fs[i]? = some frame ∧ callerTest frame = true ∧
      ∀ j : Nat, j < i → ∀ g, fs[j]? = some g → callerTest g = false := by
  induction fs with
  | nil => simp [getCallerLoop] at h
  | cons f rest ih =>
      cases rest with
      | nil => simp [getCallerLoop] at h
      | cons g rest =>
          rw [getCallerLoop] at h
          by_cases hc : callerTest f = true
          · rw [if_pos hc] at h
            cases h
            exact ⟨0, rfl, hc, fun j hj => absurd hj (Nat.not_lt_zero j)⟩
          · rw [if_neg hc] at h
            obtain ⟨i, hi, ht, hlt⟩ := ih h
            refine ⟨i + 1, by simpa using hi, ht, ?_⟩
            intro j hj x hx
            cases j with
            | zero =>
                simp at hx
                rw [← hx]
                simpa using hc
            | succ j => exact hlt j (Nat.lt_of_succ_lt_succ hj) x (by simpa using hx)

/-- A frame of the package itself does not pass the test of `getCaller`. -/
theorem callerTest_package (f : Frame) (h : getPackageName f.Function = packagePath) :
    callerTest f = false := by
  unfold callerTest
  simp only [h]
  decide

/-- A name is not found exactly when it is not among the registered names. -/
theorem find_none_iff (s : State) (x : String) : s.find x = none ↔ x ∉ s.keys := by
  simp only [State.find, State.keys, List.lookup_eq_none_iff, List.mem_map, not_exists, not_and]
  constructor
  · intro h e he hx
    have := h e he
    simp [hx] at this
  · intro h e he
    have hne : e.1 ≠ x := h e he
    simpa using fun hx => hne hx.symm

/-- On an unregistered name `NewLogger` allocates one logger at the end of the heap and
puts one new entry in front of the registry. -/
theorem newLogger_fresh (s : State) (x : String) (T : Level) (h : s.find x = none) :
    NewLogger s T x =
      ({ s with
          heap := s.heap ++ [{ level := T, pfx := x, output := Stdout }]
          loggers := (x, s.heap.length) :: s.loggers }, s.heap.length) := by
  have hf : s.loggers.filter (fun e => e.1 != x) = s.loggers := by
    rw [List.filter_eq_self]
    intro e he
    have hx : x ∉ s.keys := (find_none_iff s x).mp h
    have hne : e.1 ≠ x := by
      intro heq
      exact hx (by rw [← heq]; exact List.mem_map_of_mem Prod.fst he)
    simpa using hne
  simp [NewLogger, h, mapAssign, hf]

/-- The registered names after a sequence of `NewLogger` calls with pairwise distinct,
unregistered names: the new names, last first, in front of the old ones. -/
theorem createAll_keys (calls : List (Level × String)) (s : State)
    (hd : (calls.map Prod.snd).Nodup) (hn : ∀ x ∈ calls.map Prod.snd, x ∉ s.keys) :
    (createAll s calls).keys = (calls.map Prod.snd).reverse ++ s.keys := by
  induction calls generalizing s with
  | nil => simp [createAll]
  | cons c rest ih =>
      have hc : s.find c.2 = none := (find_none_iff s c.2).mpr (hn c.2 (by simp))
      have hs : createAll s (c :: rest) = createAll (NewLogger s c.1 c.2).1 rest := rfl
      have hk : (NewLogger s c.1 c.2).1.keys = c.2 :: s.keys := by
        rw [newLogger_fresh s c.2 c.1 hc]
        rfl
      rw [List.map_cons, List.nodup_cons] at hd
      rw [hs, ih _ hd.2]
      · rw [hk]
        simp
      · intro x hx
        rw [hk, List.mem_cons, not_or]
        refine ⟨?_, hn x (by simp [List.mem_map] at hx ⊢; exact Or.inr hx)⟩
        intro hxc
        exact hd.1 (hxc ▸ hx)

/-- The two assignments of `SetLogLevel` to the same field are one. -/
theorem setLogLevel_found (s : State) (name : String) (l : Nat) (L : Level)
    (h : s.find name = some l) : SetLogLevel s name L = (Logger.SetLevel s l L, none) := by
  have hm : (s.heap.modify (fun lg => { lg with level := L }) l).modify
      (fun lg => { lg with level := L }) l = s.heap.modify (fun lg => { lg with level := L }) l := by
    rw [List.modify_modify_eq]
    rfl
  simp [SetLogLevel, h, Logger.SetLevel, hm]

/-- An emission call below the threshold returns with the state as it was. -/
theorem call_below (m : Method) (s : State) (l : Nat) (lg : Logger) (env : CallEnv)
    (format : String) (v : List Value) (hl : s.heap[l]? = some lg)
    (h : lg.level < m.severity) : m.call s l env format v = .returned s := by
  rw [call_eq]
  have hp : m.severity ≠ PanicLevel := by
    intro h0
    rw [h0] at h
    exact Nat.not_lt_zero _ h
  simp [hp, guarded, hl, h]

/-- The method `write` changes nothing but what has been written. -/
theorem write_frame (s : State) (l : Nat) (env : CallEnv) (L : Level)
    (format : Option String) (v : List Value) :
    (Logger.write s l env L format v).state.heap = s.heap ∧
    (Logger.write s l env L format v).state.loggers = s.loggers := by
  unfold Logger.write
  cases s.heap[l]? <;> cases getCaller env.stack <;> cases format <;>
    simp [Outcome.state, fmt.Fprintf]

/-- An emission call changes nothing but what has been written. -/
theorem call_frame (m : Method) (s : State) (l : Nat) (env : CallEnv) (format : String)
    (v : List Value) :
    (m.call s l env format v).state.heap = s.heap ∧
    (m.call s l env format v).state.loggers = s.loggers := by
  rw [call_eq]
  have hw := write_frame s l env
  by_cases hp : m.severity = PanicLevel
  · rw [if_pos hp]
    have := hw PanicLevel (if m.isFormat then some format else none) v
    cases hwr : Logger.write s l env PanicLevel (if m.isFormat then some format else none) v <;>
      simpa [thenExit, Outcome.state, hwr] using this
  · rw [if_neg hp]
    unfold guarded
    cases s.heap[l]? with
    | none => exact ⟨rfl, rfl⟩
    | some lg =>
        by_cases hlt : lg.level < m.severity
        · simp [hlt, Outcome.state]
        · simpa [hlt] using hw m.severity (if m.isFormat then some format else none) v

/-- What each public operation does to the registry: nothing, or one new entry in front
for a name that was not registered. -/
theorem apply_loggers (s : State) (op : Op) :
    (op.apply s).loggers = s.loggers ∨
    ∃ x, s.find x = none ∧ (op.apply s).loggers = (x, s.heap.length) :: s.loggers := by
  cases op with
  | newLogger level name =>
      cases h : s.find name with
      | none =>
          right
          exact ⟨name, h, by simp [Op.apply, newLogger_fresh s name level h]⟩
      | some l =>
          left
          simp [Op.apply, newLogger_found s name level l h]
  | setLogLevel name level =>
      left
      cases h : s.find name with
      | none => simp [Op.apply, SetLogLevel, h]
      | some l => simp [Op.apply, setLogLevel_found s name l level h, Logger.SetLevel]
  | setDefaultLogLevel level => left; rfl
  | setLevel l level => left; rfl
  | setPrefix l name => left; rfl
  | setOutput l output => left; rfl
  | emit m l env format v => left; exact (call_frame m s l env format v).2

/-- No public operation shortens the heap. -/
theorem apply_heap_length (s : State) (op : Op) :
    s.heap.length ≤ (op.apply s).heap.length := by
  cases op with
  | newLogger level name =>
      cases h : s.find name with
      | none => simp [Op.apply, newLogger_fresh s name level h]
      | some l => simp [Op.apply, newLogger_found s name level l h]
  | setLogLevel name level =>
      cases h : s.find name with
      | none => simp [Op.apply, SetLogLevel, h]
      | some l => simp [Op.apply, setLogLevel_found s name l level h, Logger.SetLevel]
  | setDefaultLogLevel level => simp [Op.apply, SetDefaultLogLevel, Logger.SetLevel]
  | setLevel l level => simp [Op.apply, Logger.SetLevel]
  | setPrefix l name => simp [Op.apply, Logger.SetPrefix]
  | setOutput l output => simp [Op.apply, Logger.SetOutput]
  | emit m l env format v => simp [Op.apply, (call_frame m s l env format v).1]

/-- A registered name stays registered, to the same logger, over one public operation. -/
theorem apply_find (s : State) (op : Op) (name : String) (l : Nat)
    (h : s.find name = some l) : (op.apply s).find name = some l := by
  rcases apply_loggers s op with h1 | ⟨x, hx, h1⟩
  · simpa [State.find, h1] using h
  · have hne : name ≠ x := by
      intro he
      rw [he, hx] at h
      exact Option.noConfusion h
    simp only [State.find, h1, List.lookup_cons]
    have hb : (name == x) = false := by simpa using hne
    rw [hb]
    exact h

/-- The registered names stay pairwise distinct over one public operation. -/
theorem apply_keys_nodup (s : State) (op : Op) (h : s.keys.Nodup) :
    (op.apply s).keys.Nodup := by
  rcases apply_loggers s op with h1 | ⟨x, hx, h1⟩
  · simpa [State.keys, h1] using h
  · have hk : (op.apply s).keys = x :: s.keys := by simp [State.keys, h1]
    rw [hk, List.nodup_cons]
    exact ⟨(find_none_iff s x).mp hx, h⟩

theorem run_cons (s : State) (op : Op) (ops : List Op) :
    run s (op :: ops) = run (op.apply s) ops := rfl

/-- A registered name stays registered, to the same logger, over any operations. -/
theorem run_find (ops : List Op) (s : State) (name : String) (l : Nat)
    (h : s.find name = some l) : (run s ops).find name = some l := by
  induction ops generalizing s with
  | nil => exact h
  | cons op ops ih => exact ih _ (apply_find s op name l h)

/-- The registered names stay pairwise distinct over any operations. -/
theorem run_keys_nodup (ops : List Op) (s : State) (h : s.keys.Nodup) :
    (run s ops).keys.Nodup := by
  induction ops generalizing s with
  | nil => exact h
  | cons op ops ih => exact ih _ (apply_keys_nodup s op h)

/-- No sequence of public operations shortens the heap. -/
theorem run_heap_length (ops : List Op) (s : State) :
    s.heap.length ≤ (run s ops).heap.length := by
  induction ops generalizing s with
  | nil => exact Nat.le_refl _
  | cons op ops ih => exact Nat.le_trans (apply_heap_length s op) (ih _)

theorem newlines_append (a b : String) : newlines (a ++ b) = newlines a + newlines b := by
  simp [newlines, String.data_append, List.count_append]

theorem ite_ne_of (c : Prop) [Decidable c] (a b x : Char) (ha : a ≠ x) (hb : b ≠ x) :
    (if c then a else b) ≠ x := by
  split_ifs
  · exact ha
  · exact hb

theorem digitChar_ne_newline (k : Nat) : Nat.digitChar k ≠ '\n' := by
  unfold Nat.digitChar
  repeat (refine ite_ne_of _ _ _ _ (by decide) ?_)
  decide

theorem toDigitsCore_no_newline (fuel n : Nat) (ds : List Char) (h : '\n' ∉ ds) :
    '\n' ∉ Nat.toDigitsCore 10 fuel n ds := by
  induction fuel generalizing n ds with
  | zero => simpa [Nat.toDigitsCore] using h
  | succ fuel ih =>
      have hd : '\n' ∉ Nat.digitChar (n % 10) :: ds := by
        rw [List.mem_cons, not_or]
        exact ⟨fun he => digitChar_ne_newline _ he.symm, h⟩
      unfold Nat.toDigitsCore
      simp only
      split_ifs
      · exact hd
      · exact ih _ _ hd

theorem repr_no_newline (n : Nat) : '\n' ∉ (Nat.repr n).data := by
  simpa [Nat.repr, Nat.toDigits, List.asString] using toDigitsCore_no_newline (n + 1) n [] (by simp)

/-- The decimal text of an integer has no newline. -/
theorem newlines_decimal (i : Int) : newlines (fmt.decimal i) = 0 := by
  unfold newlines
  rw [List.count_eq_zero]
  cases i with
  | ofNat n => exact repr_no_newline n
  | negSucc n =>
      show '\n' ∉ ("-" ++ Nat.repr (n + 1)).data
      rw [String.data_append, List.mem_append, not_or]
      exact ⟨by decide, repr_no_newline _⟩

/-- The base name of a path without a newline has no newline. -/
theorem newlines_base (p : String) (h : newlines p = 0) : newlines (path.Base p) = 0 := by
  unfold newlines at h ⊢
  rw [List.count_eq_zero] at h ⊢
  have hq : '\n' ∉ (p.data.reverse.dropWhile (fun c => c = '/')).reverse := by
    intro hm
    exact h (List.mem_reverse.mp ((List.dropWhile_sublist _).subset (List.mem_reverse.mp hm)))
  unfold path.Base
  dsimp only
  split_ifs <;>
    first
      | exact hq
      | exact fun hm => hq (List.mem_of_mem_drop hm)
      | decide

/-- The severity field has no newline. -/
theorem newlines_field (m : Method) :
    newlines (String.mk (List.replicate (5 - (Level.String m.severity).length) ' ')
      ++ Level.String m.severity) = 0 := by
  cases m <;> decide

/-- The line of `write` ends with a newline, and has no other one when its variable parts
have none. -/
theorem lineText_newlines (ts : String) (m : Method) (lg : Logger) (frame : Frame)
    (msg : String) :
    (lineText ts m.severity lg frame msg).data.getLast? = some '\n' ∧
    (newlines ts = 0 → newlines lg.pfx = 0 → newlines frame.File = 0 →
      newlines frame.Function = 0 → newlines msg = 0 →
      newlines (lineText ts m.severity lg frame msg) = 1) := by
  constructor
  · rw [lineText, String.data_append]
    exact List.getLast?_concat _
  · intro h1 h2 h3 h4 h5
    have hfield := newlines_field m
    rw [newlines_append] at hfield
    have hl1 : newlines "[" = 0 := by decide
    have hl2 : newlines "] " = 0 := by decide
    have hl3 : newlines " " = 0 := by decide
    have hl4 : newlines ": [" = 0 := by decide
    have hl5 : newlines ":" = 0 := by decide
    have hl6 : newlines "] [" = 0 := by decide
    have hl7 : newlines "]" = 0 := by decide
    have hl8 : newlines "\n" = 1 := by decide
    simp only [lineText, newlines_append, h1, h2, newlines_base _ h3, h4, h5, newlines_decimal,
      hl1, hl2, hl3, hl4, hl5, hl6, hl7, hl8]
    omega

/-- Without an occurrence, `lastIndexFrom` returns the match it was given. -/
theorem lastIndexFrom_not_mem (c : Char) (xs : List Char) (i : Nat) (best : Int)
    (h : c ∉ xs) : strings.lastIndexFrom c xs i best = best := by
  induction xs generalizing i best with
  | nil => rfl
  | cons x xs ih =>
      rw [List.mem_cons, not_or] at h
      rw [strings.lastIndexFrom, if_neg (fun he => h.1 he.symm)]
      exact ih _ _ h.2

/-- The index `lastIndexFrom` returns is that of the last occurrence. -/
theorem lastIndexFrom_last (c : Char) (xs ys : List Char) (i : Nat) (best : Int)
    (h : c ∉ ys) : strings.lastIndexFrom c (xs ++ c :: ys) i best = (i : Int) + xs.length := by
  induction xs generalizing i best with
  | nil =>
      rw [List.nil_append, strings.lastIndexFrom, if_pos rfl, lastIndexFrom_not_mem c ys _ _ h]
      simp
  | cons x xs ih =>
      rw [List.cons_append, strings.lastIndexFrom, ih]
      simp
      omega

/-- A tail without an occurrence does not change the result of `lastIndexFrom`. -/
theorem lastIndexFrom_append_not_mem (c : Char) (xs ys : List Char) (i : Nat) (best : Int)
    (h : c ∉ ys) :
    strings.lastIndexFrom c (xs ++ ys) i best = strings.lastIndexFrom c xs i best := by
  induction xs generalizing i best with
  | nil => exact lastIndexFrom_not_mem c ys i best h
  | cons x xs ih =>
      rw [List.cons_append, strings.lastIndexFrom, strings.lastIndexFrom, ih]

/-- The index `lastIndexFrom` returns lies before the end of the text. -/
theorem lastIndexFrom_lt (c : Char) (xs : List Char) (i : Nat) (best : Int)
    (h : best < i) : strings.lastIndexFrom c xs i best < (i : Int) + xs.length := by
  induction xs generalizing i best with
  | nil => simpa [strings.lastIndexFrom] using h
  | cons x xs ih =>
      rw [strings.lastIndexFrom]
      have hb : (if x = c then (i : Int) else best) < ((i + 1 : Nat) : Int) := by
        split_ifs <;> push_cast <;> omega
      have := ih (i + 1) _ hb
      simp only [List.length_cons]
      push_cast at this ⊢
      omega

/-- A text that contains `c` splits at the last occurrence of `c`. -/
theorem exists_last_split (c : Char) (xs : List Char) (h : c ∈ xs) :
    ∃ b t, xs = b ++ c :: t ∧ c ∉ t := by
  induction xs with
  | nil => exact absurd h (List.not_mem_nil c)
  | cons x xs ih =>
      by_cases hc : c ∈ xs
      · obtain ⟨b, t, hx, ht⟩ := ih hc
        exact ⟨x :: b, t, by rw [hx]; rfl, ht⟩
      · rcases List.mem_cons.mp h with he | he
        · exact ⟨[], xs, by rw [he]; rfl, hc⟩
        · exact absurd he hc

/-- Every text is a part that is empty or ends with a slash, then a part without slash. -/
theorem exists_segment (f : List Char) :
    ∃ pre seg, f = pre ++ seg ∧ '/' ∉ seg ∧ (pre = [] ∨ ∃ a, pre = a ++ ['/']) := by
  by_cases h : '/' ∈ f
  · obtain ⟨a, t, hf, ht⟩ := exists_last_split '/' f h
    exact ⟨a ++ ['/'], t, by rw [hf]; simp, ht, Or.inr ⟨a, rfl⟩⟩
  · exact ⟨[], f, rfl, h, Or.inl rfl⟩

/-- The last slash of a text is the last character of its first part. -/
theorem lastIndex_slash (pre seg : List Char) (hseg : '/' ∉ seg)
    (hpre : pre = [] ∨ ∃ a, pre = a ++ ['/']) :
    strings.LastIndex (pre ++ seg) '/' = (pre.length : Int) - 1 := by
  unfold strings.LastIndex
  rw [lastIndexFrom_append_not_mem '/' pre seg 0 (-1) hseg]
  rcases hpre with rfl | ⟨a, rfl⟩
  · rfl
  · rw [lastIndexFrom_last '/' a [] 0 (-1) (List.not_mem_nil _)]
    simp

/-- Reading up to the first period stops at a period. -/
theorem takeWhile_append_period (b t : List Char) :
    (b ++ '.' :: t).takeWhile (fun c => c != '.') = b.takeWhile (fun c => c != '.') := by
  induction b with
  | nil => simp [List.takeWhile]
  | cons x b ih =>
      by_cases hx : x = '.'
      · simp [List.takeWhile, hx]
      · simp [List.takeWhile, hx, ih]

/-- The loop of `getPackageName`, with fuel above the length of the part after the last
slash, cuts that part at its first period. -/
theorem getPackageNameLoop_eq (fuel : Nat) (pre seg : List Char) (hseg : '/' ∉ seg)
    (hpre : pre = [] ∨ ∃ a, pre = a ++ ['/']) (hfuel : seg.length < fuel) :
    getPackageNameLoop fuel (pre ++ seg) = pre ++ seg.takeWhile (fun c => c != '.') := by
  induction fuel generalizing seg with
  | zero => exact absurd hfuel (Nat.not_lt_zero _)
  | succ fuel ih =>
      rw [getPackageNameLoop]
      simp only [lastIndex_slash pre seg hseg hpre]
      by_cases hp : '.' ∈ seg
      · obtain ⟨b, t, hs, ht⟩ := exists_last_split '.' seg hp
        have hlast : strings.LastIndex (pre ++ seg) '.' = ((pre ++ b).length : Int) := by
          unfold strings.LastIndex
          rw [hs, ← List.append_assoc, lastIndexFrom_last '.' (pre ++ b) t 0 (-1) ht]
          simp
        have hgt : strings.LastIndex (pre ++ seg) '.' > (pre.length : Int) - 1 := by
          rw [hlast]
          simp only [List.length_append]
          push_cast
          omega
        have hb : '/' ∉ b := fun hm => hseg (by rw [hs]; exact List.mem_append_left _ hm)
        have hlen : b.length < fuel := by
          have : seg.length = b.length + (t.length + 1) := by rw [hs]; simp
          omega
        have htake : (pre ++ seg).take (pre ++ b).length = pre ++ b := by
          rw [hs, ← List.append_assoc]
          exact List.take_left' rfl
        rw [if_pos hgt, hlast, Int.toNat_ofNat, htake, ih b hb hlen, hs,
          takeWhile_append_period]
      · have hle : ¬ strings.LastIndex (pre ++ seg) '.' > (pre.length : Int) - 1 := by
          unfold strings.LastIndex
          rw [lastIndexFrom_append_not_mem '.' pre seg 0 (-1) hp]
          have := lastIndexFrom_lt '.' pre 0 (-1) (by decide)
          push_cast at this
          omega
        have hall : seg.takeWhile (fun c => c != '.') = seg := by
          rw [List.takeWhile_eq_self_iff]
          intro x hx
          have : x ≠ '.' := fun he => hp (he ▸ hx)
          simpa using this
        rw [if_neg hle, hall]

/-- With fuel above the length of the text, the loop of `getPackageName` returns the first
part and the second part cut at its first period. -/
theorem getPackageNameLoop_data (f : String) (pre seg : List Char) (hf : f.data = pre ++ seg)
    (hseg : '/' ∉ seg) (hpre : pre = [] ∨ ∃ a, pre = a ++ ['/']) (fuel : Nat)
    (hfuel : f.length < fuel) :
    getPackageNameLoop fuel f.data = pre ++ seg.takeWhile (fun c => c != '.') := by
  have hlen : seg.length < fuel := by
    have h1 : f.length = f.data.length := rfl
    have h2 : f.data.length = pre.length + seg.length := by rw [hf]; simp
    omega
  rw [hf]
  exact getPackageNameLoop_eq fuel pre seg hseg hpre hlen

/-- The base name of a path that ends in a non-empty element without slash, after a slash,
is that element. -/
theorem base_join (dir name : String) (hs : '/' ∉ name.data) (hne : name ≠ "") :
    path.Base (dir ++ "/" ++ name) = name := by
  have hd : (dir ++ "/" ++ name).data = dir.data ++ '/' :: name.data := by
    simp [String.data_append]
  have hnd : name.data ≠ [] := fun h => hne (String.ext (by rw [h]))
  have hp : dir ++ "/" ++ name ≠ "" := by
    intro h
    have := congrArg String.data h
    rw [hd] at this
    simp at this
  have hrev : ((dir ++ "/" ++ name).data.reverse.dropWhile (fun c => c = '/')).reverse
      = dir.data ++ '/' :: name.data := by
    rw [hd]
    cases hr : name.data.reverse with
    | nil => exact absurd (List.reverse_eq_nil_iff.mp hr) hnd
    | cons x xs =>
        have hx : x ∈ name.data := List.mem_reverse.mp (by rw [hr]; exact List.mem_cons_self _ _)
        have hxs : x ≠ '/' := fun h => hs (h ▸ hx)
        have hre : (dir.data ++ '/' :: name.data).reverse = x :: (xs ++ '/' :: dir.data.reverse) := by
          simp [hr]
        rw [hre, List.dropWhile_cons]
        simp only [hxs, decide_False]
        rw [if_neg Bool.false_ne_true, ← hre, List.reverse_reverse]
  have hidx : strings.LastIndex (dir.data ++ '/' :: name.data) '/' = (dir.data.length : Int) := by
    unfold strings.LastIndex
    rw [lastIndexFrom_last '/' dir.data name.data 0 (-1) hs]
    simp
  have hdrop : (dir.data ++ '/' :: name.data).drop ((dir.data.length : Int) + 1).toNat
      = name.data := by
    have : ((dir.data.length : Int) + 1).toNat = dir.data.length + 1 := by omega
    rw [this]
    have h2 : dir.data ++ '/' :: name.data = (dir.data ++ ['/']) ++ name.data := by simp
    rw [h2]
    exact List.drop_left' (by simp)
  have hnn : (0 : Int) ≤ (dir.data.length : Int) := Int.ofNat_nonneg _
  unfold path.Base
  rw [if_neg hp]
  dsimp only
  rw [hrev, hidx, if_pos hnn, hdrop, if_neg hnd]

/-- The base name of a non-empty path without slash is the path. -/
theorem base_plain (name : String) (hs : '/' ∉ name.data) (hne : name ≠ "") :
    path.Base name = name := by
  have hnd : name.data ≠ [] := fun h => hne (String.ext (by rw [h]))
  have hrev : (name.data.reverse.dropWhile (fun c => c = '/')).reverse = name.data := by
    have : name.data.reverse.dropWhile (fun c => c = '/') = name.data.reverse := by
      cases hr : name.data.reverse with
      | nil => rfl
      | cons x xs =>
          have hx : x ∈ name.data :=
            List.mem_reverse.mp (by rw [hr]; exact List.mem_cons_self _ _)
          have hxs : x ≠ '/' := fun h => hs (h ▸ hx)
          rw [List.dropWhile_cons]
          simp [hxs]
    rw [this, List.reverse_reverse]
  have hidx : strings.LastIndex name.data '/' = -1 :=
    lastIndexFrom_not_mem '/' name.data 0 (-1) hs
  have hneg : ¬ ((0 : Int) ≤ -1) := by decide
  unfold path.Base
  rw [if_neg hne]
  dsimp only
  rw [hrev, hidx, if_neg hneg, if_neg hnd]

/-! ## The claims -/

/-- The threshold gate: a call of any of the twelve emission methods, of severity `S`, on an allocated
logger of threshold `T`: when `T < S` the call returns with the whole state unchanged
(nothing written, no logger or registry change); anything written implies `S ≤ T`; and when
`S ≤ T`, with the caller frame resolved, exactly one record is appended, to the logger's
own output, and nothing else in the state changes. -/
theorem emission_iff_threshold (m : Method) (s : State) (l : Nat) (lg : Logger)
    (env : CallEnv) (format : String) (v : List Value) (hl : s.heap[l]? = some lg) :
    (lg.level < m.severity → m.call s l env format v = .returned s) ∧
    ((m.call s l env format v).state.written ≠ s.written → m.severity ≤ lg.level) ∧
    (∀ frame, getCaller env.stack = some frame →
      (m.severity ≤ lg.level ↔
        ∃ line, (m.call s l env format v).state =
          { s with written := s.written ++ [(lg.output, line)] })) := by
  have hlow : lg.level < m.severity → m.call s l env format v = .returned s := by
    intro h
    rw [call_eq]
    have hp : m.severity ≠ PanicLevel := by
      intro h0
      rw [h0] at h
      exact Nat.not_lt_zero _ h
    simp [hp, guarded, hl, h]
  refine ⟨hlow, ?_, ?_⟩
  · intro hw
    by_contra hlt
    exact hw (by rw [hlow (Nat.lt_of_not_le hlt)]; rfl)
  · intro frame hf
    constructor
    · intro hT
      exact ⟨_, call_resolved m s l lg env frame format v hl hf hT⟩
    · rintro ⟨line, hline⟩
      by_contra hlt
      rw [hlow (Nat.lt_of_not_le hlt)] at hline
      have hw := congrArg State.written hline
      simp [Outcome.state] at hw

/-- The threshold gate, exercised: the default logger at its initial threshold Debug, called from
`main.main`; `Tracef` is above the threshold and changes nothing, `Infof` writes. -/
theorem emission_iff_threshold_witness :
    initState.heap[defaultLogger]? = some { level := DebugLevel, pfx := "default", output := Stdout } ∧
    Method.call .Tracef initState defaultLogger exampleEnv "%s" [.str "x"]
      = .returned initState ∧
    (Method.severity .Infof ≤ DebugLevel ↔
      ∃ line, (Method.call .Infof initState defaultLogger exampleEnv "%s" [.str "x"]).state =
        { initState with written := initState.written ++ [(Stdout, line)] }) :=
  ⟨by decide,
   (emission_iff_threshold .Tracef initState defaultLogger
      { level := DebugLevel, pfx := "default", output := Stdout } exampleEnv "%s" [.str "x"]
      (by decide)).1 (by decide),
   (emission_iff_threshold .Infof initState defaultLogger
      { level := DebugLevel, pfx := "default", output := Stdout } exampleEnv "%s" [.str "x"]
      (by decide)).2.2 exampleCaller (by decide)⟩

/-- C1: on the stack of `deepStackFor`, where none of the ten captured frames passes the
test of `getCaller`, `Warn("x")` on the default logger passes the threshold (Warn is not
above Debug) and yet writes nothing: the call ends in a run-time panic, the state as it
was. -/
theorem threshold_passed_nothing_written :
    initState.heap[defaultLogger]?
      = some { level := DebugLevel, pfx := "default", output := Stdout } ∧
    Method.severity .Warn ≤ DebugLevel ∧
    Method.call .Warn initState defaultLogger
        { now := "2024-01-02 03:04:05.678", stack := deepStackFor "Warn" } "" [.str "x"]
      = .panicked initState ∧
    (Method.call .Warn initState defaultLogger
        { now := "2024-01-02 03:04:05.678", stack := deepStackFor "Warn" } ""
        [.str "x"]).state.written = initState.written := by
  decide

/-- C2: on a registry where `x` is not registered, `NewLogger(T, x)` followed by
`NewLogger(T2, x)` returns the same logger both times; the second call leaves the whole
state unchanged, and the logger still has threshold `T`, display name `x` and the standard
output as its sink, and is the one registered under `x`. -/
theorem newLogger_twice (s : State) (x : String) (T T2 : Level) (h : s.find x = none) :
    (NewLogger (NewLogger s T x).1 T2 x).2 = (NewLogger s T x).2 ∧
    (NewLogger (NewLogger s T x).1 T2 x).1 = (NewLogger s T x).1 ∧
    (NewLogger (NewLogger s T x).1 T2 x).1.heap[(NewLogger s T x).2]?
      = some { level := T, pfx := x, output := Stdout } ∧
    (NewLogger (NewLogger s T x).1 T2 x).1.find x = some (NewLogger s T x).2 := by
  have h1 : NewLogger s T x =
      ({ s with
          heap := s.heap ++ [{ level := T, pfx := x, output := Stdout }]
          loggers := mapAssign s.loggers x s.heap.length }, s.heap.length) := by
    simp [NewLogger, h]
  have hfind : (NewLogger s T x).1.find x = some s.heap.length := by
    rw [h1]
    simp [State.find, mapAssign, List.lookup]
  have h2 : NewLogger (NewLogger s T x).1 T2 x = ((NewLogger s T x).1, s.heap.length) :=
    newLogger_found _ x T2 _ hfind
  rw [h2]
  refine ⟨by rw [h1], rfl, ?_, by rw [hfind, h1]⟩
  rw [h1]
  simp

/-- C2, exercised: the name `x` on the initial registry, thresholds Warn then Trace. -/
theorem newLogger_twice_witness :
    initState.find "x" = none ∧
    (NewLogger (NewLogger initState WarnLevel "x").1 TraceLevel "x").2
      = (NewLogger initState WarnLevel "x").2 ∧
    (NewLogger (NewLogger initState WarnLevel "x").1 TraceLevel "x").1
      = (NewLogger initState WarnLevel "x").1 ∧
    (NewLogger (NewLogger initState WarnLevel "x").1 TraceLevel "x").1.heap[
        (NewLogger initState WarnLevel "x").2]?
      = some { level := WarnLevel, pfx := "x", output := Stdout } ∧
    (NewLogger (NewLogger initState WarnLevel "x").1 TraceLevel "x").1.find "x"
      = some (NewLogger initState WarnLevel "x").2 :=
  ⟨by decide, newLogger_twice initState "x" WarnLevel TraceLevel (by decide)⟩

/-- C3: `SetLogLevel(name, X)` returns an error exactly when `name` is not registered; the
error text is then `logger [<name>] not found` and the whole state (registry, every
logger's threshold, display name and output, and the sinks) is unchanged. -/
theorem setLogLevel_error_iff (s : State) (name : String) (X : Level) :
    ((SetLogLevel s name X).2 ≠ none ↔ s.find name = none) ∧
    (s.find name = none →
      (SetLogLevel s name X).2 = some ("logger [" ++ name ++ "] not found") ∧
      (SetLogLevel s name X).1 = s) := by
  unfold SetLogLevel
  cases h : s.find name with
  | none => simp [sprintf_notFound]
  | some l => simp

/-- C3, exercised: the name `nonexistent` on the initial registry. -/
theorem setLogLevel_error_iff_witness :
    initState.find "nonexistent" = none ∧
    (SetLogLevel initState "nonexistent" ErrorLevel).2
      = some "logger [nonexistent] not found" ∧
    (SetLogLevel initState "nonexistent" ErrorLevel).1 = initState :=
  ⟨by decide, (setLogLevel_error_iff initState "nonexistent" ErrorLevel).2 (by decide)⟩

/-- C4: for each of the five recognized lowercase names, `StringToLevel` followed by
`String` gives the name in upper case. -/
theorem stringToLevel_string_roundtrip :
    Level.String (StringToLevel "trace") = "TRACE" ∧
    Level.String (StringToLevel "debug") = "DEBUG" ∧
    Level.String (StringToLevel "info") = "INFO" ∧
    Level.String (StringToLevel "warn") = "WARN" ∧
    Level.String (StringToLevel "error") = "ERROR" := by
  decide

/-- C5: at the numeric level 7, the first one above `TraceLevel`, `String` returns the text
`UNKOWN`, which is not `UNKNOWN`. -/
theorem level_string_out_of_range :
    Level.String 7 = "UNKOWN" ∧ Level.String 7 ≠ "UNKNOWN" := by
  decide

/-- C6, as stated, fails: the default logger at threshold Info, called from `main.main` in
`main.go` line 9, does not write `INFO` followed by two spaces; the pad space comes before
the severity name. -/
theorem infof_line_counterexample :
    (Infof (SetDefaultLogLevel initState InfoLevel).1 exampleEnv "%s-%d"
        [.str "a", .int 3]).state.written
      ≠ [(Stdout, "[" ++ exampleEnv.now ++ "] INFO  default: [" ++ "main.go" ++ ":" ++ "9"
            ++ "] [" ++ "main.main" ++ "] a-3" ++ "\n")] ∧
    (Infof (SetDefaultLogLevel initState InfoLevel).1 exampleEnv "%s-%d"
        [.str "a", .int 3]).state.written
      = [(Stdout, "[" ++ exampleEnv.now ++ "]  INFO default: [" ++ "main.go" ++ ":" ++ "9"
            ++ "] [" ++ "main.main" ++ "] a-3" ++ "\n")] := by
  decide

/-- C6, amended: for the default logger at threshold Info with display name `default`, a
timestamp text `ts` and a resolved caller frame, `Infof("%s-%d", "a", 3)` returns after
writing to the logger's output exactly `[ts]`, two spaces, `INFO`, one space, `default:`,
the file's base name, line and function in brackets, and `a-3`, then a newline; the
severity field ` INFO` has five characters, the name right-aligned in it. -/
theorem infof_line (s : State) (out : Nat) (ts : String) (stack : List Frame) (frame : Frame)
    (hl : s.heap[defaultLogger]? = some { level := InfoLevel, pfx := "default", output := out })
    (hf : getCaller stack = some frame) :
    Infof s { now := ts, stack := stack } "%s-%d" [.str "a", .int 3] =
      .returned { s with written := s.written ++
        [(out, "[" ++ ts ++ "] " ++ " INFO" ++ " " ++ "default" ++ ": ["
            ++ path.Base frame.File ++ ":" ++ fmt.decimal frame.Line ++ "] ["
            ++ frame.Function ++ "] " ++ "a-3" ++ "\n")] } ∧
    " INFO".length = 5 := by
  refine ⟨?_, by decide⟩
  have hw := write_resolved s defaultLogger _ { now := ts, stack := stack } frame InfoLevel
    (some "%s-%d") [.str "a", .int 3] hl hf
  have hm : fmt.Sprintf "%s-%d" [.str "a", .int 3] = "a-3" := by decide
  have hp : (String.mk (List.replicate (5 - (Level.String InfoLevel).length) ' ')
      ++ Level.String InfoLevel) = " INFO" := by decide
  unfold Infof Logger.Infof guarded
  simp only [hl]
  rw [if_neg (by decide), hw]
  simp only [lineText, hm, hp, String.append_assoc, bracket_space]

/-- C6 amended, exercised: the call from `main.main` after `SetDefaultLogLevel(InfoLevel)`. -/
theorem infof_line_witness :
    Infof (SetDefaultLogLevel initState InfoLevel).1
        { now := "2024-01-02 03:04:05.678", stack := exampleStack } "%s-%d" [.str "a", .int 3] =
      .returned { (SetDefaultLogLevel initState InfoLevel).1 with
        written := (SetDefaultLogLevel initState InfoLevel).1.written ++
          [(Stdout, "[" ++ "2024-01-02 03:04:05.678" ++ "] " ++ " INFO" ++ " " ++ "default"
              ++ ": [" ++ path.Base exampleCaller.File ++ ":" ++ fmt.decimal exampleCaller.Line
              ++ "] [" ++ exampleCaller.Function ++ "] " ++ "a-3" ++ "\n")] } ∧
    " INFO".length = 5 :=
  infof_line (SetDefaultLogLevel initState InfoLevel).1 Stdout "2024-01-02 03:04:05.678"
    exampleStack exampleCaller (by decide) (by decide)

/-- C7: an emitting call of any method (severity `L` one of the six named levels) on a
logger with display name `p`, with timestamp text `ts`, resolved caller frame and message
text `m`, writes to the logger's output exactly
`[ts] F p: [basename(file):line] [function] m` and a newline, where the field `F` is the
name of `L` behind the spaces that fill it to five characters, and has exactly five, and
where `basename(file)` is the last element of the file path: what follows its last slash,
or the whole path when it has no slash. -/
theorem line_layout (m : Method) (s : State) (l : Nat) (lg : Logger) (ts : String)
    (stack : List Frame) (frame : Frame) (format : String) (v : List Value)
    (hl : s.heap[l]? = some lg) (hf : getCaller stack = some frame)
    (hT : m.severity ≤ lg.level) :
    (m.call s l { now := ts, stack := stack } format v).state.written =
      s.written ++ [(lg.output,
        "[" ++ ts ++ "] "
          ++ (String.mk (List.replicate (5 - (Level.String m.severity).length) ' ')
              ++ Level.String m.severity)
          ++ " " ++ lg.pfx ++ ": [" ++ path.Base frame.File ++ ":" ++ fmt.decimal frame.Line
          ++ "] [" ++ frame.Function ++ "] " ++ m.message format v ++ "\n")] ∧
    (String.mk (List.replicate (5 - (Level.String m.severity).length) ' ')
        ++ Level.String m.severity).length = 5 ∧
    Level.String m.severity ∈
      ["TRACE", "DEBUG", "INFO", "WARN", "ERROR", "PANIC"] ∧
    (∀ dir name : String, frame.File = dir ++ "/" ++ name → '/' ∉ name.data → name ≠ "" →
      path.Base frame.File = name) ∧
    ('/' ∉ frame.File.data → frame.File ≠ "" → path.Base frame.File = frame.File) := by
  refine ⟨?_, by cases m <;> decide, by cases m <;> decide, ?_, base_plain frame.File⟩
  · rw [call_resolved m s l lg { now := ts, stack := stack } frame format v hl hf hT]
    simp only [lineText, String.append_assoc, bracket_space]
  · intro dir name hfile hs hne
    rw [hfile]
    exact base_join dir name hs hne

/-- C7, exercised: `Warn("disk ", 93, "%")` on the default logger, called from `cmd.Serve`
in the file `/home/dev/app/cmd/server.go`, line 42: the line carries `server.go:42`. -/
theorem line_layout_witness :
    (Method.call .Warn initState defaultLogger
        { now := "2024-01-02 03:04:05.678", stack := serverStack } ""
        [.str "disk ", .int 93, .str "%"]).state.written =
      [(Stdout, "[2024-01-02 03:04:05.678]  WARN default: [server.go:42] "
          ++ "[github.com/acme/app/cmd.Serve] disk 93%\n")] ∧
    path.Base serverCaller.File = "server.go" :=
  ⟨(line_layout .Warn initState defaultLogger
      { level := DebugLevel, pfx := "default", output := Stdout } "2024-01-02 03:04:05.678"
      serverStack serverCaller "" [.str "disk ", .int 93, .str "%"]
      (by decide) (by decide) (by decide)).1,
    (line_layout .Warn initState defaultLogger
      { level := DebugLevel, pfx := "default", output := Stdout } "2024-01-02 03:04:05.678"
      serverStack serverCaller "" [.str "disk ", .int 93, .str "%"]
      (by decide) (by decide) (by decide)).2.2.2.1 "/home/dev/app/cmd" "server.go"
      (by decide) (by decide) (by decide)⟩

/-- C8, as stated, fails: `Info(1, 2)` on the default logger writes the message `1 2`,
with a space between the two values, not their plain concatenation `12`. -/
theorem variadic_message_counterexample :
    (Logger.Info initState defaultLogger exampleEnv [.int 1, .int 2]).state.written
      ≠ [(Stdout, "[2024-01-02 03:04:05.678]  INFO default: [main.go:9] [main.main] "
            ++ plainConcat [.int 1, .int 2] ++ "\n")] ∧
    (Logger.Info initState defaultLogger exampleEnv [.int 1, .int 2]).state.written
      = [(Stdout, "[2024-01-02 03:04:05.678]  INFO default: [main.go:9] [main.main] "
            ++ "1 2" ++ "\n")] ∧
    plainConcat [.int 1, .int 2] = "12" := by
  decide

/-- C8, amended: for a variadic-form emission method that passes the threshold with the
caller resolved, the message part of the written line is the values' default string forms
in order with one space inserted between two consecutive values exactly when neither is a
string; when every two consecutive values include a string it is their plain
concatenation, no separator. -/
theorem variadic_message (m : Method) (s : State) (l : Nat) (lg : Logger) (env : CallEnv)
    (frame : Frame) (format : String) (v : List Value) (hm : m.isFormat = false)
    (hl : s.heap[l]? = some lg) (hf : getCaller env.stack = some frame)
    (hT : m.severity ≤ lg.level) :
    (m.call s l env format v).state.written =
      s.written ++ [(lg.output, lineText env.now m.severity lg frame (spacedConcat v))] ∧
    (stringBetween v = true → spacedConcat v = plainConcat v) := by
  refine ⟨?_, spacedConcat_plain v⟩
  rw [call_resolved m s l lg env frame format v hl hf hT]
  simp [Method.message, hm, sprint_eq]

/-- C8 amended, exercised: `Error("code ", 7, 8, "!")` on the default logger. -/
theorem variadic_message_witness :
    (Method.call .Error initState defaultLogger exampleEnv ""
        [.str "code ", .int 7, .int 8, .str "!"]).state.written =
      [(Stdout, "[2024-01-02 03:04:05.678] ERROR default: [main.go:9] [main.main] "
          ++ "code 7 8!" ++ "\n")] :=
  (variadic_message .Error initState defaultLogger
    { level := DebugLevel, pfx := "default", output := Stdout } exampleEnv exampleCaller ""
    [.str "code ", .int 7, .int 8, .str "!"] (by decide) (by decide) (by decide)
    (by decide)).1

/-- The Panic forms: `Panic` and `Panicf` on an allocated logger of any threshold never return to the
caller; with the caller frame resolved they write exactly one line, of severity `PANIC`, to
the logger's output and then the process exits with code -1, a non-zero exit status. -/
theorem panic_writes_then_exits (m : Method) (s : State) (l : Nat) (lg : Logger)
    (env : CallEnv) (format : String) (v : List Value)
    (hm : m = .Panic ∨ m = .Panicf) (hl : s.heap[l]? = some lg) :
    (∀ s1, m.call s l env format v ≠ .returned s1) ∧
    (∀ frame, getCaller env.stack = some frame →
      m.call s l env format v =
        .exited (-1) { s with written := s.written ++
          [(lg.output, "[" ++ env.now ++ "] " ++ "PANIC" ++ " " ++ lg.pfx ++ ": ["
              ++ path.Base frame.File ++ ":" ++ fmt.decimal frame.Line ++ "] ["
              ++ frame.Function ++ "] " ++ m.message format v ++ "\n")] }) ∧
    exitStatus (-1) ≠ 0 := by
  have hc : m.call s l env format v =
      thenExit (Logger.write s l env PanicLevel (if m.isFormat then some format else none) v)
        (-1) := by
    rcases hm with rfl | rfl <;> rfl
  refine ⟨?_, ?_, by decide⟩
  · intro s1
    rw [hc]
    cases Logger.write s l env PanicLevel (if m.isFormat then some format else none) v <;>
      simp [thenExit]
  · intro frame hf
    have hp : (String.mk (List.replicate (5 - (Level.String PanicLevel).length) ' ')
        ++ Level.String PanicLevel) = "PANIC" := by decide
    rw [hc, write_resolved s l lg env frame _ _ v hl hf, message_eq]
    simp only [thenExit, lineText, hp, String.append_assoc, bracket_space]

/-- The Panic forms, exercised: `Panic("stop")` on a logger whose threshold is `PanicLevel`. -/
theorem panic_writes_then_exits_witness :
    Method.call .Panic (SetDefaultLogLevel initState PanicLevel).1 defaultLogger exampleEnv ""
        [.str "stop"] =
      .exited (-1) { (SetDefaultLogLevel initState PanicLevel).1 with
        written := [(Stdout,
          "[2024-01-02 03:04:05.678] PANIC default: [main.go:9] [main.main] stop\n")] } :=
  (panic_writes_then_exits .Panic (SetDefaultLogLevel initState PanicLevel).1 defaultLogger
    { level := PanicLevel, pfx := "default", output := Stdout } exampleEnv "" [.str "stop"]
    (Or.inl rfl) (by decide)).2.1 exampleCaller (by decide)

/-- C9: on the stack of `deepStackFor`, where none of the ten captured frames passes the
test of `getCaller`, `Panic("stop")` and `Panicf("stop")` on the default logger write no
line and do not reach `os.Exit`: the call ends in a run-time panic, the state as it was. -/
theorem panic_faults_before_exit :
    Method.call .Panic initState defaultLogger
        { now := "2024-01-02 03:04:05.678", stack := deepStackFor "Panic" } "" [.str "stop"]
      = .panicked initState ∧
    Method.call .Panicf initState defaultLogger
        { now := "2024-01-02 03:04:05.678", stack := deepStackFor "Panicf" } "stop" []
      = .panicked initState ∧
    (Method.call .Panic initState defaultLogger
        { now := "2024-01-02 03:04:05.678", stack := deepStackFor "Panic" } ""
        [.str "stop"]).state.written = [] := by
  decide

/-- C10, as stated, fails: in `helperStack` the first frame outside the package
`github.com/widaT/logbus` is the helper `github.com/acme/logbuskit.Audit`, but `getCaller`
passes over it and reports `main.main`. -/
theorem getCaller_counterexample :
    getCaller helperStack ≠ firstOutsidePackage helperStack ∧
    firstOutsidePackage helperStack = some helperFrame ∧
    getCaller helperStack = some exampleCaller := by
  decide

/-- A frame `getCaller` reports is among the first ten after the frame of
`runtime.Callers`, passes the package test where every frame before it fails, is not of the
package itself, and is the frame whose file base name, line number and function name an
emission call writes. -/
theorem getCaller_some (stack : List Frame) (frame : Frame)
    (h : getCaller stack = some frame) :
    (∃ i : Nat, i < 10 ∧ (stack.drop 1)[i]? = some frame ∧
      ∀ j : Nat, j < i → ∀ g, (stack.drop 1)[j]? = some g →
        (strings.Contains (getPackageName g.Function).data "logbus".data = true ∨
          getPackageName g.Function = "")) ∧
    strings.Contains (getPackageName frame.Function).data "logbus".data = false ∧
    getPackageName frame.Function ≠ "" ∧
    getPackageName frame.Function ≠ packagePath ∧
    (∀ (m : Method) (s : State) (l : Nat) (lg : Logger) (ts format : String) (v : List Value),
      s.heap[l]? = some lg → m.severity ≤ lg.level →
      (m.call s l { now := ts, stack := stack } format v).state.written =
        s.written ++ [(lg.output,
          "[" ++ ts ++ "] "
            ++ (String.mk (List.replicate (5 - (Level.String m.severity).length) ' ')
                ++ Level.String m.severity)
            ++ " " ++ lg.pfx ++ ": [" ++ path.Base frame.File ++ ":"
            ++ fmt.decimal frame.Line ++ "] [" ++ frame.Function ++ "] "
            ++ m.message format v ++ "\n")]) := by
  have h0 : getCallerLoop ((stack.drop 1).take 10) = some frame := h
  obtain ⟨i, hi, ht, hlt⟩ := getCallerLoop_first _ frame h0
  have hi10 : i < 10 := by
    by_contra hge
    rw [List.getElem?_take_eq_none (Nat.le_of_not_lt hge)] at hi
    exact Option.noConfusion hi
  have htest : ∀ g : Frame, callerTest g = false →
      (strings.Contains (getPackageName g.Function).data "logbus".data = true ∨
        getPackageName g.Function = "") := by
    intro g hg
    simp only [callerTest, logPackage, Bool.and_eq_false_iff, Bool.not_eq_false',
      bne_eq_false_iff_eq] at hg
    exact hg
  have hpass : strings.Contains (getPackageName frame.Function).data "logbus".data = false ∧
      getPackageName frame.Function ≠ "" := by
    simpa [callerTest, logPackage] using ht
  refine ⟨⟨i, hi10, ?_, ?_⟩, hpass.1, hpass.2, ?_, ?_⟩
  · rw [← hi]
    exact (List.getElem?_take_of_lt hi10).symm
  · intro j hj g hg
    refine htest g (hlt j hj g ?_)
    rw [← hg]
    exact List.getElem?_take_of_lt (Nat.lt_trans hj hi10)
  · intro hpkg
    rw [callerTest_package frame hpkg] at ht
    exact Bool.noConfusion ht
  · intro m s l lg ts format v hl hT
    rw [call_resolved m s l lg { now := ts, stack := stack } frame format v hl h hT]
    simp only [lineText, String.append_assoc, bracket_space]

/-- The loop of `getCaller` reports the first frame that passes its test, when that frame
is followed by another one. -/
theorem getCallerLoop_reports (fs : List Frame) (i : Nat) (frame : Frame)
    (hi : fs[i]? = some frame) (hnext : i + 1 < fs.length) (hpass : callerTest frame = true)
    (hfirst : ∀ g ∈ fs.take i, callerTest g = false) : getCallerLoop fs = some frame := by
  induction fs generalizing i with
  | nil => exact absurd hnext (Nat.not_lt_zero _)
  | cons f rest ih =>
      cases rest with
      | nil =>
          simp only [List.length_singleton] at hnext
          omega
      | cons g rest =>
          rw [getCallerLoop]
          cases i with
          | zero =>
              have hf : f = frame := by simpa using hi
              rw [hf, if_pos hpass]
          | succ k =>
              have hfalse : callerTest f = false := hfirst f (by simp)
              have hne : ¬ (callerTest f = true) := by rw [hfalse]; exact Bool.false_ne_true
              rw [if_neg hne]
              refine ih k (by simpa using hi) ?_ ?_
              · simp only [List.length_cons] at hnext ⊢
                omega
              · intro x hx
                exact hfirst x (by rw [List.take_succ_cons]; exact List.mem_cons_of_mem _ hx)

/-- C10, amended: `getCaller` captures at most 10 frames, starting at its own. When the
first captured frame whose package name neither contains the text `logbus` nor is empty is
not the last captured frame, `getCaller` reports that frame. A frame it reports is always
that first one, is never of the package `github.com/widaT/logbus` itself, and the line an
emission call writes carries its file base name, line number and full function name. -/
theorem getCaller_reports (stack : List Frame) :
    (∀ (i : Nat) (frame : Frame),
      ((stack.drop 1).take 10)[i]? = some frame →
      i + 1 < ((stack.drop 1).take 10).length →
      strings.Contains (getPackageName frame.Function).data "logbus".data = false →
      getPackageName frame.Function ≠ "" →
      (∀ g ∈ ((stack.drop 1).take 10).take i,
        strings.Contains (getPackageName g.Function).data "logbus".data = true ∨
          getPackageName g.Function = "") →
      getCaller stack = some frame) ∧
    (∀ frame : Frame, getCaller stack = some frame →
      (∃ i : Nat, i < 10 ∧ (stack.drop 1)[i]? = some frame ∧
        ∀ j : Nat, j < i → ∀ g, (stack.drop 1)[j]? = some g →
          (strings.Contains (getPackageName g.Function).data "logbus".data = true ∨
            getPackageName g.Function = "")) ∧
      strings.Contains (getPackageName frame.Function).data "logbus".data = false ∧
      getPackageName frame.Function ≠ "" ∧
      getPackageName frame.Function ≠ packagePath ∧
      (∀ (m : Method) (s : State) (l : Nat) (lg : Logger) (ts format : String)
          (v : List Value),
        s.heap[l]? = some lg → m.severity ≤ lg.level →
        (m.call s l { now := ts, stack := stack } format v).state.written =
          s.written ++ [(lg.output,
            "[" ++ ts ++ "] "
              ++ (String.mk (List.replicate (5 - (Level.String m.severity).length) ' ')
                  ++ Level.String m.severity)
              ++ " " ++ lg.pfx ++ ": [" ++ path.Base frame.File ++ ":"
              ++ fmt.decimal frame.Line ++ "] [" ++ frame.Function ++ "] "
              ++ m.message format v ++ "\n")])) := by
  constructor
  · intro i frame hi hnext hc he hfirst
    have hpass : callerTest frame = true := by
      simp [callerTest, logPackage, hc, he]
    refine getCallerLoop_reports _ i frame hi hnext hpass ?_
    intro g hg
    rcases hfirst g hg with h1 | h1
    · simp [callerTest, h1]
    · simp [callerTest, logPackage, h1]
  · intro frame h
    exact getCaller_some stack frame h

/-- C10 amended, exercised: on `helperStack` the first passing frame is `main.main`, fifth
of the captured frames and followed by two more; `getCaller` reports it, and `Info("x")`
writes its file, line and function. -/
theorem getCaller_reports_witness :
    getCaller helperStack = some exampleCaller ∧
    (Method.call .Info initState defaultLogger
        { now := "2024-01-02 03:04:05.678", stack := helperStack } ""
        [.str "x"]).state.written =
      [(Stdout, "[2024-01-02 03:04:05.678]  INFO default: [main.go:9] [main.main] x\n")] :=
  ⟨(getCaller_reports helperStack).1 4 exampleCaller (by decide) (by decide) (by decide)
      (by decide) (by decide),
    ((getCaller_reports helperStack).2 exampleCaller (by decide)).2.2.2.2 .Info initState
      defaultLogger { level := DebugLevel, pfx := "default", output := Stdout }
      "2024-01-02 03:04:05.678" "" [.str "x"] (by decide) (by decide)⟩

/-- C11: on `deepStack`, where none of the ten captured frames passes the test of
`getCaller`, `Info("x")` on the default logger passes the threshold and ends in a run-time
panic (nil pointer dereference in `write`) with nothing written; `getCaller` returned nil. -/
theorem missing_caller_faults :
    getCaller deepStack = none ∧
    Logger.Info initState defaultLogger
        { now := "2024-01-02 03:04:05.678", stack := deepStack } [.str "x"]
      = .panicked initState := by
  decide

/-- C12: every string other than the five recognized lowercase names converts to
`DebugLevel`, the level of `StringToLevel("debug")`. -/
theorem stringToLevel_fallback (s : String) (h1 : s ≠ "trace") (h2 : s ≠ "debug")
    (h3 : s ≠ "info") (h4 : s ≠ "warn") (h5 : s ≠ "error") :
    StringToLevel s = DebugLevel ∧ StringToLevel s = StringToLevel "debug" := by
  have h : StringToLevel s = DebugLevel := by
    simp [StringToLevel, h1, h2, h3, h4, h5]
  exact ⟨h, by rw [h]; decide⟩

/-- C12, exercised: `panic`, `fatal`, the empty string and the upper-case `INFO`. -/
theorem stringToLevel_fallback_witness :
    StringToLevel "panic" = DebugLevel ∧ StringToLevel "fatal" = DebugLevel ∧
    StringToLevel "" = DebugLevel ∧ StringToLevel "INFO" = StringToLevel "debug" :=
  ⟨(stringToLevel_fallback "panic" (by decide) (by decide) (by decide) (by decide)
      (by decide)).1,
    (stringToLevel_fallback "fatal" (by decide) (by decide) (by decide) (by decide)
      (by decide)).1,
    (stringToLevel_fallback "" (by decide) (by decide) (by decide) (by decide)
      (by decide)).1,
    (stringToLevel_fallback "INFO" (by decide) (by decide) (by decide) (by decide)
      (by decide)).2⟩

/-- C13: the initial registry holds exactly the entry `default`, a logger at Debug
threshold; after `NewLogger` calls with `n` pairwise distinct names, none of them
`default`, `GetLoggers` has exactly `n + 1` entries, all under different names; for the
names `a`, `b`, `c` it has exactly four. -/
theorem getLoggers_count (calls : List (Level × String))
    (hd : (calls.map Prod.snd).Nodup) (hn : "default" ∉ calls.map Prod.snd) :
    GetLoggers initState = [("default", defaultLogger)] ∧
    initState.heap[defaultLogger]?
      = some { level := DebugLevel, pfx := "default", output := Stdout } ∧
    (GetLoggers (createAll initState calls)).length = calls.length + 1 ∧
    ((GetLoggers (createAll initState calls)).map Prod.fst).Nodup ∧
    (∀ T1 T2 T3 : Level,
      (GetLoggers (createAll initState [(T1, "a"), (T2, "b"), (T3, "c")])).length = 4) := by
  have hinit : initState.keys = ["default"] := by decide
  have hk : (createAll initState calls).keys = (calls.map Prod.snd).reverse ++ ["default"] := by
    rw [createAll_keys calls initState hd, hinit]
    intro x hx
    rw [hinit, List.mem_singleton]
    intro hxd
    exact hn (hxd ▸ hx)
  have hlen : (GetLoggers (createAll initState calls)).length = calls.length + 1 := by
    have := congrArg List.length hk
    simpa [State.keys, GetLoggers] using this
  refine ⟨by decide, by decide, hlen, ?_, ?_⟩
  · show (createAll initState calls).keys.Nodup
    rw [hk, List.nodup_append]
    refine ⟨List.nodup_reverse.mpr hd, List.nodup_singleton _, ?_⟩
    intro x hx hx2
    rw [List.mem_singleton] at hx2
    exact hn (hx2 ▸ List.mem_reverse.mp hx)
  · intro T1 T2 T3
    have hd3 : ([(T1, "a"), (T2, "b"), (T3, "c")].map Prod.snd).Nodup := by
      show (["a", "b", "c"] : List String).Nodup
      decide
    have hk3 := createAll_keys [(T1, "a"), (T2, "b"), (T3, "c")] initState hd3
      (by
        rw [hinit]
        show ∀ x ∈ (["a", "b", "c"] : List String), x ∉ ["default"]
        decide)
    have := congrArg List.length hk3
    simpa [State.keys, GetLoggers, hinit] using this

/-- C13, exercised: the names `a`, `b`, `c` at thresholds Info, Warn, Trace. -/
theorem getLoggers_count_witness :
    (GetLoggers (createAll initState
      [(InfoLevel, "a"), (WarnLevel, "b"), (TraceLevel, "c")])).length = 3 + 1 :=
  (getLoggers_count [(InfoLevel, "a"), (WarnLevel, "b"), (TraceLevel, "c")]
    (by decide) (by decide)).2.2.1

/-- C14: for a logger `l` registered under `n`, after `l.SetPrefix(p)` the registry is
unchanged and `n` still resolves to `l`: `NewLogger(_, n)` returns `l` and changes nothing,
`SetLogLevel(n, X)` returns nil and sets the threshold of `l` to `X`; the logger has display
name `p`, its threshold and output as before, and a line it writes carries `p` as the
logger name. -/
theorem setPrefix_keeps_registry (s : State) (n p : String) (l : Nat) (lg : Logger)
    (hn : s.find n = some l) (hl : s.heap[l]? = some lg) :
    (Logger.SetPrefix s l p).loggers = s.loggers ∧
    (Logger.SetPrefix s l p).find n = some l ∧
    (∀ T, NewLogger (Logger.SetPrefix s l p) T n = (Logger.SetPrefix s l p, l)) ∧
    (∀ X, (SetLogLevel (Logger.SetPrefix s l p) n X).2 = none ∧
      (SetLogLevel (Logger.SetPrefix s l p) n X).1.heap[l]?
        = some { level := X, pfx := p, output := lg.output }) ∧
    (Logger.SetPrefix s l p).heap[l]?
      = some { level := lg.level, pfx := p, output := lg.output } ∧
    (∀ (m : Method) (env : CallEnv) (frame : Frame) (format : String) (v : List Value),
      getCaller env.stack = some frame → m.severity ≤ lg.level →
      (m.call (Logger.SetPrefix s l p) l env format v).state.written =
        s.written ++ [(lg.output,
          "[" ++ env.now ++ "] "
            ++ (String.mk (List.replicate (5 - (Level.String m.severity).length) ' ')
                ++ Level.String m.severity)
            ++ " " ++ p ++ ": [" ++ path.Base frame.File ++ ":"
            ++ fmt.decimal frame.Line ++ "] [" ++ frame.Function ++ "] "
            ++ m.message format v ++ "\n")]) := by
  have hfind : (Logger.SetPrefix s l p).find n = some l := hn
  have hheap : (Logger.SetPrefix s l p).heap[l]?
      = some { level := lg.level, pfx := p, output := lg.output } := by
    simp [Logger.SetPrefix, hl]
  refine ⟨rfl, hfind, ?_, ?_, hheap, ?_⟩
  · intro T
    exact newLogger_found _ n T l hfind
  · intro X
    rw [setLogLevel_found _ n l X hfind]
    refine ⟨rfl, ?_⟩
    simp [Logger.SetLevel, hheap]
  · intro m env frame format v hf hT
    rw [call_resolved m _ l _ env frame format v hheap hf hT]
    simp only [lineText, String.append_assoc, bracket_space]
    rfl

/-- C14, exercised: the default logger renamed to `core`, then `Info("x")`. -/
theorem setPrefix_keeps_registry_witness :
    (Logger.SetPrefix initState defaultLogger "core").find "default" = some defaultLogger ∧
    (Method.call .Info (Logger.SetPrefix initState defaultLogger "core") defaultLogger
        exampleEnv "" [.str "x"]).state.written =
      [(Stdout, "[2024-01-02 03:04:05.678]  INFO core: [main.go:9] [main.main] x\n")] :=
  ⟨(setPrefix_keeps_registry initState "default" "core" defaultLogger
      { level := DebugLevel, pfx := "default", output := Stdout } (by decide) (by decide)).2.1,
    (setPrefix_keeps_registry initState "default" "core" defaultLogger
      { level := DebugLevel, pfx := "default", output := Stdout } (by decide)
      (by decide)).2.2.2.2.2 .Info exampleEnv exampleCaller "" [.str "x"] (by decide)
      (by decide)⟩

/-- C15: in every state reached from the initial one by public operations,
`SetDefaultLogLevel(L)` returns nil and sets to `L` the threshold of the logger registered
under `default`, leaving its display name and output and every other logger as they were;
its result is that of `SetLogLevel("default", L)`. -/
theorem setDefaultLogLevel_effect (ops : List Op) (L : Level) :
    (SetDefaultLogLevel (run initState ops) L).2 = none ∧
    (run initState ops).find "default" = some defaultLogger ∧
    (∃ lg, (run initState ops).heap[defaultLogger]? = some lg ∧
      (SetDefaultLogLevel (run initState ops) L).1.heap[defaultLogger]?
        = some { level := L, pfx := lg.pfx, output := lg.output }) ∧
    (∀ l : Nat, l ≠ defaultLogger →
      (SetDefaultLogLevel (run initState ops) L).1.heap[l]? = (run initState ops).heap[l]?) ∧
    SetDefaultLogLevel (run initState ops) L = SetLogLevel (run initState ops) "default" L := by
  have hfind : (run initState ops).find "default" = some defaultLogger :=
    run_find ops initState "default" defaultLogger (by decide)
  have hlen : defaultLogger < (run initState ops).heap.length :=
    Nat.lt_of_lt_of_le (by decide) (run_heap_length ops initState)
  refine ⟨rfl, hfind, ?_, ?_, ?_⟩
  · refine ⟨(run initState ops).heap[defaultLogger], List.getElem?_eq_getElem hlen, ?_⟩
    simp [SetDefaultLogLevel, Logger.SetLevel, List.getElem?_eq_getElem hlen]
  · intro l hne
    simp [SetDefaultLogLevel, Logger.SetLevel, List.getElem?_modify_ne _ _ (Ne.symm hne)]
  · rw [setLogLevel_found _ "default" defaultLogger L hfind]
    rfl

/-- C16: over any sequence of public operations from the initial registry, then any
further ones, a registered name stays registered and resolves to the same logger; the
registered names are pairwise distinct (one logger for each name) and none disappears. -/
theorem registry_only_grows (ops more : List Op) :
    (∀ (name : String) (l : Nat), (run initState ops).find name = some l →
      (run (run initState ops) more).find name = some l) ∧
    (run initState ops).keys.Nodup ∧
    (∀ name : String, name ∈ (run initState ops).keys →
      name ∈ (run (run initState ops) more).keys) := by
  refine ⟨fun name l h => run_find more _ name l h, run_keys_nodup ops initState (by decide), ?_⟩
  intro name hmem
  by_contra hnot
  have hnone := (find_none_iff _ name).mpr hnot
  cases hf : (run initState ops).find name with
  | none => exact (find_none_iff _ name).mp hf hmem
  | some l =>
      rw [run_find more _ name l hf] at hnone
      exact Option.noConfusion hnone

/-- C16, exercised: `main` registered, then renamed, re-levelled and created again. -/
theorem registry_only_grows_witness :
    (run initState [.newLogger InfoLevel "main"]).find "main" = some 1 ∧
    (run (run initState [.newLogger InfoLevel "main"])
      [.setPrefix 1 "other", .setLogLevel "main" TraceLevel, .newLogger WarnLevel "main",
        .newLogger WarnLevel "other"]).find "main" = some 1 :=
  ⟨by decide,
    (registry_only_grows [.newLogger InfoLevel "main"]
      [.setPrefix 1 "other", .setLogLevel "main" TraceLevel, .newLogger WarnLevel "main",
        .newLogger WarnLevel "other"]).1 "main" 1 (by decide)⟩

/-- C15, exercised: after `NewLogger(InfoLevel, "main")` and a rename of the default
logger, `SetDefaultLogLevel(WarnLevel)` does what `SetLogLevel("default", WarnLevel)` does. -/
theorem setDefaultLogLevel_effect_witness :
    SetDefaultLogLevel (run initState [.newLogger InfoLevel "main", .setPrefix 0 "core"])
        WarnLevel =
      SetLogLevel (run initState [.newLogger InfoLevel "main", .setPrefix 0 "core"])
        "default" WarnLevel :=
  (setDefaultLogLevel_effect [.newLogger InfoLevel "main", .setPrefix 0 "core"]
    WarnLevel).2.2.2.2

/-- C18: for a name `n` registered to logger `l`, `SetLogLevel(n, L)` returns nil and sets
the threshold of `l` to `L`, leaving its display name and output, every other logger, the
registry and the sinks unchanged; the next emission call on `l` is gated by `L`: below it
the call changes nothing, at or above it (caller resolved) it writes its line. -/
theorem setLogLevel_sets_threshold (s : State) (n : String) (l : Nat) (lg : Logger)
    (L : Level) (hn : s.find n = some l) (hl : s.heap[l]? = some lg) :
    (SetLogLevel s n L).2 = none ∧
    (SetLogLevel s n L).1.heap[l]? = some { level := L, pfx := lg.pfx, output := lg.output } ∧
    (∀ k : Nat, k ≠ l → (SetLogLevel s n L).1.heap[k]? = s.heap[k]?) ∧
    (SetLogLevel s n L).1.loggers = s.loggers ∧
    (SetLogLevel s n L).1.written = s.written ∧
    (∀ (m : Method) (env : CallEnv) (format : String) (v : List Value),
      L < m.severity →
      m.call (SetLogLevel s n L).1 l env format v = .returned (SetLogLevel s n L).1) ∧
    (∀ (m : Method) (env : CallEnv) (frame : Frame) (format : String) (v : List Value),
      getCaller env.stack = some frame → m.severity ≤ L →
      (m.call (SetLogLevel s n L).1 l env format v).state.written =
        s.written ++ [(lg.output,
          "[" ++ env.now ++ "] "
            ++ (String.mk (List.replicate (5 - (Level.String m.severity).length) ' ')
                ++ Level.String m.severity)
            ++ " " ++ lg.pfx ++ ": [" ++ path.Base frame.File ++ ":"
            ++ fmt.decimal frame.Line ++ "] [" ++ frame.Function ++ "] "
            ++ m.message format v ++ "\n")]) := by
  have hs : SetLogLevel s n L = (Logger.SetLevel s l L, none) := setLogLevel_found s n l L hn
  have hheap : (Logger.SetLevel s l L).heap[l]?
      = some { level := L, pfx := lg.pfx, output := lg.output } := by
    simp [Logger.SetLevel, hl]
  rw [hs]
  refine ⟨rfl, hheap, ?_, rfl, rfl, ?_, ?_⟩
  · intro k hk
    simp [Logger.SetLevel, List.getElem?_modify_ne _ _ (Ne.symm hk)]
  · intro m env format v hlt
    exact call_below m _ l _ env format v hheap hlt
  · intro m env frame format v hf hT
    rw [call_resolved m _ l _ env frame format v hheap hf hT]
    simp only [lineText, String.append_assoc, bracket_space]
    rfl

/-- C18, exercised: `SetLogLevel("default", WarnLevel)` on the initial state; the next
`Info` is dropped and the next `Warn` is written. -/
theorem setLogLevel_sets_threshold_witness :
    (SetLogLevel initState "default" WarnLevel).2 = none ∧
    Method.call .Info (SetLogLevel initState "default" WarnLevel).1 defaultLogger exampleEnv ""
        [.str "x"] = .returned (SetLogLevel initState "default" WarnLevel).1 ∧
    (Method.call .Warn (SetLogLevel initState "default" WarnLevel).1 defaultLogger exampleEnv ""
        [.str "x"]).state.written =
      [(Stdout, "[2024-01-02 03:04:05.678]  WARN default: [main.go:9] [main.main] x\n")] :=
  ⟨(setLogLevel_sets_threshold initState "default" defaultLogger
      { level := DebugLevel, pfx := "default", output := Stdout } WarnLevel (by decide)
      (by decide)).1,
    (setLogLevel_sets_threshold initState "default" defaultLogger
      { level := DebugLevel, pfx := "default", output := Stdout } WarnLevel (by decide)
      (by decide)).2.2.2.2.2.1 .Info exampleEnv "" [.str "x"] (by decide),
    (setLogLevel_sets_threshold initState "default" defaultLogger
      { level := DebugLevel, pfx := "default", output := Stdout } WarnLevel (by decide)
      (by decide)).2.2.2.2.2.2 .Warn exampleEnv exampleCaller "" [.str "x"] (by decide)
      (by decide)⟩

/-- C17, as stated, fails: `Info("a\nb")` on the default logger writes a text with two
newlines, one of them inside the message. -/
theorem one_line_counterexample :
    (Logger.Info initState defaultLogger exampleEnv [.str "a\nb"]).state.written
      = [(Stdout, "[2024-01-02 03:04:05.678]  INFO default: [main.go:9] [main.main] a\nb\n")] ∧
    newlines "[2024-01-02 03:04:05.678]  INFO default: [main.go:9] [main.main] a\nb\n" = 2 := by
  decide

/-- C17, amended: every emitting call makes exactly one write to the logger's output; the
bytes written end with a newline, and they contain no other newline when the timestamp
text, the display name, the caller's file and function name and the message text contain
none. -/
theorem one_line (m : Method) (s : State) (l : Nat) (lg : Logger) (env : CallEnv)
    (frame : Frame) (format : String) (v : List Value)
    (hl : s.heap[l]? = some lg) (hf : getCaller env.stack = some frame)
    (hT : m.severity ≤ lg.level) :
    ∃ text, (m.call s l env format v).state.written = s.written ++ [(lg.output, text)] ∧
      text.data.getLast? = some '\n' ∧
      (newlines env.now = 0 → newlines lg.pfx = 0 → newlines frame.File = 0 →
        newlines frame.Function = 0 → newlines (m.message format v) = 0 →
        newlines text = 1) := by
  refine ⟨lineText env.now m.severity lg frame (m.message format v), ?_,
    lineText_newlines env.now m lg frame (m.message format v)⟩
  rw [call_resolved m s l lg env frame format v hl hf hT]

/-- C17 amended, exercised: `Errorf("%d items", 3)` on the default logger. -/
theorem one_line_witness :
    ∃ text, (Method.call .Errorf initState defaultLogger exampleEnv "%d items"
        [.int 3]).state.written = initState.written ++ [(Stdout, text)] ∧
      text.data.getLast? = some '\n' ∧
      (newlines exampleEnv.now = 0 → newlines "default" = 0 →
        newlines exampleCaller.File = 0 → newlines exampleCaller.Function = 0 →
        newlines (Method.message .Errorf "%d items" [.int 3]) = 0 → newlines text = 1) :=
  one_line .Errorf initState defaultLogger
    { level := DebugLevel, pfx := "default", output := Stdout } exampleEnv exampleCaller
    "%d items" [.int 3] (by decide) (by decide) (by decide)

/-- C19: `getPackageName` terminates (any fuel above the length of `f` gives the same
result) and, with `f` read as a part `pre` that is empty or ends with the last slash and a
part `seg` without slash, returns `pre` followed by `seg` up to its first period: `f`
unchanged when `seg` has no period; the result has no period after its last slash, and
`getPackageName` is idempotent. -/
theorem getPackageName_cut (f : String) :
    (∃ pre seg, f.data = pre ++ seg ∧ '/' ∉ seg ∧ (pre = [] ∨ ∃ a, pre = a ++ ['/'])) ∧
    (∀ pre seg, f.data = pre ++ seg → '/' ∉ seg → (pre = [] ∨ ∃ a, pre = a ++ ['/']) →
      (getPackageName f).data = pre ++ seg.takeWhile (fun c => c != '.') ∧
      ('.' ∉ seg → getPackageName f = f) ∧
      '.' ∉ seg.takeWhile (fun c => c != '.') ∧
      '/' ∉ seg.takeWhile (fun c => c != '.')) ∧
    getPackageName (getPackageName f) = getPackageName f ∧
    (∀ fuel, f.length < fuel → String.mk (getPackageNameLoop fuel f.data) = getPackageName f) := by
  have hnoperiod : ∀ seg : List Char, '.' ∉ seg.takeWhile (fun c => c != '.') := by
    intro seg hm
    have := @List.mem_takeWhile_imp Char (fun c => c != '.') seg '.' hm
    simp at this
  have hnoslash : ∀ seg : List Char, '/' ∉ seg → '/' ∉ seg.takeWhile (fun c => c != '.') :=
    fun seg hs hm => hs ((List.takeWhile_sublist _).subset hm)
  have hmain : ∀ pre seg, f.data = pre ++ seg → '/' ∉ seg →
      (pre = [] ∨ ∃ a, pre = a ++ ['/']) →
      (getPackageName f).data = pre ++ seg.takeWhile (fun c => c != '.') := by
    intro pre seg hf hseg hpre
    exact getPackageNameLoop_data f pre seg hf hseg hpre (f.length + 1) (Nat.lt_succ_self _)
  obtain ⟨pre, seg, hf, hseg, hpre⟩ := exists_segment f.data
  refine ⟨⟨pre, seg, hf, hseg, hpre⟩, ?_, ?_, ?_⟩
  · intro pre2 seg2 hf2 hseg2 hpre2
    refine ⟨hmain pre2 seg2 hf2 hseg2 hpre2, ?_, hnoperiod seg2, hnoslash seg2 hseg2⟩
    intro hp
    apply String.ext
    rw [hmain pre2 seg2 hf2 hseg2 hpre2, hf2]
    congr 1
    rw [List.takeWhile_eq_self_iff]
    intro x hx
    have : x ≠ '.' := fun he => hp (he ▸ hx)
    simpa using this
  · apply String.ext
    have h1 := hmain pre seg hf hseg hpre
    have h2 := getPackageNameLoop_data (getPackageName f) pre
      (seg.takeWhile (fun c => c != '.')) h1 (hnoslash seg hseg) hpre
      ((getPackageName f).length + 1) (Nat.lt_succ_self _)
    have h3 : (getPackageName (getPackageName f)).data
        = getPackageNameLoop ((getPackageName f).length + 1) (getPackageName f).data := rfl
    rw [h3, h2, h1]
    congr 1
    rw [List.takeWhile_eq_self_iff]
    intro x hx
    exact @List.mem_takeWhile_imp Char (fun c => c != '.') seg x hx
  · intro fuel hfuel
    apply String.ext
    rw [hmain pre seg hf hseg hpre]
    exact getPackageNameLoop_data f pre seg hf hseg hpre fuel hfuel

/-- C19, exercised: the function name of the method `Info`, cut after the package path. -/
theorem getPackageName_cut_witness :
    (getPackageName "github.com/widaT/logbus.(*Logger).Info").data
      = "github.com/widaT/".data ++ "logbus.(*Logger).Info".data.takeWhile (fun c => c != '.') ∧
    getPackageName "github.com/widaT/logbus.(*Logger).Info" = "github.com/widaT/logbus" :=
  ⟨((getPackageName_cut "github.com/widaT/logbus.(*Logger).Info").2.1
      "github.com/widaT/".data "logbus.(*Logger).Info".data (by decide) (by decide)
      (Or.inr ⟨"github.com/widaT".data, by decide⟩)).1, by decide⟩

end Logbus
